import Mathlib

/-!
Verification development for the GPU command-stream virtualization and
guest-memory core of the yuzu emulator snapshot in this repository.

Each component of the C++ source is shallowly embedded as executable Lean
definitions: machine integers become Nat with explicit wrap (% 2^w) where
overflow matters, fallible paths return Option or an outcome inductive, and
calls out to the rasterizer / host GPU are recorded as events. Definitions
are translated from the source files; where a declaration lives in a header
that is not part of the source tree, the definition is marked
"Modelled from the spec:" and follows the specification document.
-/

set_option maxHeartbeats 1000000

namespace Spec2Proof

/-! ## CPU guest memory core (src/core/memory.cpp) -/

namespace CoreMemory

/-- Page-size constants of the CPU memory core: 4 KiB pages, as in the spec
scenario where the range [0x1000, 0x2000) is exactly one page. -/
def PAGE_BITS : Nat := 12

def PAGE_SIZE : Nat := 1 <<< PAGE_BITS

def PAGE_MASK : Nat := PAGE_SIZE - 1

/-- Common.PageType as used by memory.cpp: the per-page attribute. -/
inductive PageType
  | Unmapped
  | Memory
  | RasterizerCachedMemory
  | Special
deriving DecidableEq, Repr

/-- Rasterizer/GPU coherency calls issued by the memory core. -/
inductive GpuOp
  | flushRegion (addr size : Nat)
  | invalidateRegion (addr size : Nat)
  | flushAndInvalidateRegion (addr size : Nat)
deriving DecidableEq, Repr

/-- State of Memory.Impl relevant to the access paths: the current page table
(pointer presence and attribute per page index) and the guest memory
contents. The sizeof(T)-byte memcpy at the host pointer is modelled as a
lookup/update of the machine word stored at the virtual address; the byte
granularity below one access is not needed by any claim. -/
structure Impl where
  pointers : Nat → Bool
  attributes : Nat → PageType
  mem : Nat → Nat

/-- Store a word at a virtual address. -/
def writeMem (st : Impl) (vaddr data : Nat) : Impl :=
  { st with mem := fun a => if a = vaddr then data else st.mem a }

/-- Result of Memory.Impl.Read: the value read together with the rasterizer
calls made and whether an unmapped-access error was logged, or a fatal
assert (the ASSERT_MSG(false) on a pointerless Memory page, and the
UNREACHABLE default arm). -/
inductive ReadOutcome
  | ok (value : Nat) (ops : List GpuOp) (logged : Bool)
  | fatal
deriving DecidableEq, Repr

/-- Memory.Impl.Read (memory.cpp lines 631-660) for an access of sz bytes:
fast path through the direct page pointer, else dispatch on the attribute.
On RasterizerCachedMemory the backing host pointer is assumed present (its
absence is an invariant violation per the spec's error tiers). -/
def Read (st : Impl) (vaddr sz : Nat) : ReadOutcome :=
  if st.pointers (vaddr >>> PAGE_BITS) then
    .ok (st.mem vaddr) [] false
  else
    match st.attributes (vaddr >>> PAGE_BITS) with
    | .Unmapped => .ok 0 [] true
    | .Memory => .fatal
    | .RasterizerCachedMemory => .ok (st.mem vaddr) [.flushRegion vaddr sz] false
    | .Special => .fatal

/-- Result of Memory.Impl.Write: the new state, rasterizer calls and the
logging flag, or a fatal assert. -/
inductive WriteOutcome
  | ok (st : Impl) (ops : List GpuOp) (logged : Bool)
  | fatal

/-- Memory.Impl.Write (memory.cpp lines 673-700). -/
def Write (st : Impl) (vaddr data sz : Nat) : WriteOutcome :=
  if st.pointers (vaddr >>> PAGE_BITS) then
    .ok (writeMem st vaddr data) [] false
  else
    match st.attributes (vaddr >>> PAGE_BITS) with
    | .Unmapped => .ok st [] true
    | .Memory => .fatal
    | .RasterizerCachedMemory =>
        .ok (writeMem st vaddr data) [.invalidateRegion vaddr sz] false
    | .Special => .fatal

/-- Modelled from the spec: Common.AtomicCompareAndSwap (common/atomic_ops.cpp
is not in the source tree) — compare-and-swap on one cell: the new value is
stored exactly when the stored value equals the expected one, and the call
reports whether the swap succeeded. -/
def AtomicCompareAndSwap (cell data expected : Nat) : Bool × Nat :=
  if cell = expected then (true, data) else (false, cell)

/-- Result of Memory.Impl.WriteExclusive. The casLocalPointer outcome stands
for the RasterizerCachedMemory branch, where the source takes the address of
the local variable holding the host pointer and compare-and-swaps that stack
slot, so guest memory is untouched there; no claim exercises that branch. -/
inductive CasOutcome
  | ok (result : Bool) (st : Impl) (ops : List GpuOp) (logged : Bool)
  | casLocalPointer (st : Impl) (ops : List GpuOp)
  | fatal

/-- Memory.Impl.WriteExclusive (memory.cpp lines 702-730). -/
def WriteExclusive (st : Impl) (vaddr data expected sz : Nat) : CasOutcome :=
  if st.pointers (vaddr >>> PAGE_BITS) then
    let r := AtomicCompareAndSwap (st.mem vaddr) data expected
    .ok r.1 (if r.1 then writeMem st vaddr data else st) [] false
  else
    match st.attributes (vaddr >>> PAGE_BITS) with
    | .Unmapped => .ok true st [] true
    | .Memory => .fatal
    | .RasterizerCachedMemory => .casLocalPointer st [.invalidateRegion vaddr sz]
    | .Special => .fatal

/-- Memory.Impl.MapPages (memory.cpp lines 573-618): installs attribute and
pointer presence for pages [base, base+size). A zero target encodes a null
host pointer, legal only for non-Memory page types (the source asserts
otherwise). The flush loop over previously rasterizer-cached pages only
issues GPU events, which no claim here observes, and is omitted. -/
def MapPages (st : Impl) (base size target : Nat) (type : PageType) : Option Impl :=
  if target = 0 ∧ type = PageType.Memory then none
  else some { st with
    pointers := fun p => if base ≤ p ∧ p < base + size then decide (target ≠ 0) else st.pointers p,
    attributes := fun p => if base ≤ p ∧ p < base + size then type else st.attributes p }

/-- Memory.Impl.MapMemoryRegion (memory.cpp lines 41-45): asserts page
alignment, then installs Memory pages. -/
def MapMemoryRegion (st : Impl) (base size target : Nat) : Option Impl :=
  if base &&& PAGE_MASK ≠ 0 ∨ size &&& PAGE_MASK ≠ 0 then none
  else MapPages st (base / PAGE_SIZE) (size / PAGE_SIZE) target PageType.Memory

/-- Memory.Impl.UnmapRegion (memory.cpp lines 52-56). -/
def UnmapRegion (st : Impl) (base size : Nat) : Option Impl :=
  if base &&& PAGE_MASK ≠ 0 ∨ size &&& PAGE_MASK ≠ 0 then none
  else MapPages st (base / PAGE_SIZE) (size / PAGE_SIZE) 0 PageType.Unmapped

/-- Invariant installed by MapPages: a page whose attribute is Unmapped holds
no direct pointer (the only writer installing the Unmapped attribute is
UnmapRegion, with a zero target, and RasterizerMarkRegionCached withdraws a
pointer only together with a non-Unmapped attribute). -/
def PageInv (st : Impl) : Prop :=
  ∀ p, st.attributes p = PageType.Unmapped → st.pointers p = false

end CoreMemory

/-! ## 2D blit engine (src/video_core/engines/fermi_2d.cpp) -/

namespace Fermi2D

/-- Unsigned 32-bit wrap. -/
def m32 (n : Nat) : Nat := n % 2 ^ 32

/-- Unsigned 32-bit subtraction with wraparound. -/
def sub32 (a b : Nat) : Nat := (a % 2 ^ 32 + 2 ^ 32 - b % 2 ^ 32) % 2 ^ 32

/-- Value of a u32 bit pattern reinterpreted as a signed 32-bit integer. -/
def toS32 (n : Nat) : Int :=
  if n % 2 ^ 32 < 2 ^ 31 then (n % 2 ^ 32 : Int) else (n % 2 ^ 32 : Int) - 2 ^ 32

/-- DelimitLine (fermi_2d.cpp lines 43-48): u32 line arithmetic with the
excess clamped through std.max over s32. Division by a zero line_a is
undefined behaviour in the source; Nat division by zero stands in for it
and is exercised by no claim. -/
def DelimitLine (src_1 src_2 dst_1 dst_2 src_line : Nat) : Nat × Nat :=
  let line_a := sub32 src_2 src_1
  let line_b := sub32 dst_2 dst_1
  let excess := (max 0 (toS32 (m32 (sub32 line_a src_line + src_1)))).toNat
  (sub32 line_b (m32 (excess * line_b) / line_a), excess)

/-- Modelled from the spec: the blit origin selector of the register file
(video_core/engines/fermi_2d.h is not in the source tree). -/
inductive Origin
  | Center
  | Corner
deriving DecidableEq, Repr

/-- Modelled from the spec: the copy operation selector; only SrcCopy is
implemented, any other operation is a fatal assert. -/
inductive Operation
  | SrcCopy
  | OtherOp
deriving DecidableEq, Repr

/-- Common.Rectangle ordered as (left, top, right, bottom). -/
structure Rect where
  left : Nat
  top : Nat
  right : Nat
  bottom : Nat
deriving DecidableEq, Repr

/-- Modelled from the spec: the Fermi2D register fields read by
HandleSurfaceCopy (fermi_2d.h is not in the source tree). blit_src_x/y and
blit_du_dx/dv_dy are 64-bit fixed-point (32.32) registers; the blit_dst
fields are u32; src/dst width and height bound the source and destination
surfaces. -/
structure Regs where
  operation : Operation
  origin : Origin
  blit_src_x : Nat
  blit_src_y : Nat
  blit_du_dx : Nat
  blit_dv_dy : Nat
  blit_dst_x : Nat
  blit_dst_y : Nat
  blit_dst_width : Nat
  blit_dst_height : Nat
  src_width : Nat
  src_height : Nat
  dst_width : Nat
  dst_height : Nat
deriving DecidableEq, Repr

/-- HandleSurfaceCopy (fermi_2d.cpp lines 50-99) reduced to its pure
geometry: the clipped source and destination rectangles handed to
AccelerateSurfaceCopy, or none when the operation is not SrcCopy (fatal
assert in the source). -/
def HandleSurfaceCopy (regs : Regs) : Option (Rect × Rect) :=
  if regs.operation ≠ Operation.SrcCopy then none
  else
    let src_blit_x1 := regs.blit_src_x >>> 32
    let src_blit_y1 := regs.blit_src_y >>> 32
    let src_blit_x2 :=
      match regs.origin with
      | .Corner => ((regs.blit_src_x + regs.blit_du_dx * regs.blit_dst_width % 2 ^ 64) % 2 ^ 64) >>> 32
      | .Center => m32 ((regs.blit_src_x >>> 32) + regs.blit_dst_width)
    let src_blit_y2 :=
      match regs.origin with
      | .Corner => ((regs.blit_src_y + regs.blit_dv_dy * regs.blit_dst_height % 2 ^ 64) % 2 ^ 64) >>> 32
      | .Center => m32 ((regs.blit_src_y >>> 32) + regs.blit_dst_height)
    let dst_blit_x2 := m32 (regs.blit_dst_x + regs.blit_dst_width)
    let dst_blit_y2 := m32 (regs.blit_dst_y + regs.blit_dst_height)
    let p1 := DelimitLine src_blit_x1 src_blit_x2 regs.blit_dst_x dst_blit_x2 regs.src_width
    let p2 := DelimitLine src_blit_y1 src_blit_y2 regs.blit_dst_y dst_blit_y2 regs.src_height
    let dst_blit_x2 := m32 (p1.1 + regs.blit_dst_x)
    let src_blit_x2 := sub32 src_blit_x2 p1.2
    let dst_blit_y2 := m32 (p2.1 + regs.blit_dst_y)
    let src_blit_y2 := sub32 src_blit_y2 p2.2
    let p3 := DelimitLine regs.blit_dst_x dst_blit_x2 src_blit_x1 src_blit_x2 regs.dst_width
    let p4 := DelimitLine regs.blit_dst_y dst_blit_y2 src_blit_y1 src_blit_y2 regs.dst_height
    let src_blit_x2 := m32 (p3.1 + src_blit_x1)
    let dst_blit_x2 := sub32 dst_blit_x2 p3.2
    let src_blit_y2 := m32 (p4.1 + src_blit_y1)
    let dst_blit_y2 := sub32 dst_blit_y2 p4.2
    some (⟨src_blit_x1, src_blit_y1, src_blit_x2, src_blit_y2⟩,
          ⟨regs.blit_dst_x, regs.blit_dst_y, dst_blit_x2, dst_blit_y2⟩)

end Fermi2D

/-! ## GPU virtual memory manager (src/video_core/memory_manager.cpp) -/

namespace Tegra

/-- Modelled from the spec: page-size constants of the GPU page table
(video_core/memory_manager.h is not in the source tree); the GPU page size
is independent of the CPU page size, here the implementation's 64 KiB. -/
def page_bits : Nat := 16

def page_size : Nat := 1 <<< page_bits

def page_mask : Nat := page_size - 1

/-- Modelled from the spec: PageEntry (memory_manager.h is not in the source
tree) — either Unmapped, an Allocated placeholder reserving address space
without backing, or a valid CPU address. -/
inductive PageEntry
  | Unmapped
  | Allocated
  | Valid (addr : Nat)
deriving DecidableEq, Repr

def PageEntry.IsUnmapped : PageEntry → Bool
  | .Unmapped => true
  | _ => false

def PageEntry.IsValid : PageEntry → Bool
  | .Valid _ => true
  | _ => false

def PageEntry.ToAddress : PageEntry → Nat
  | .Valid a => a
  | _ => 0

/-- PageEntry addition: offsets do not apply to the reserved values. -/
def PageEntry.add : PageEntry → Nat → PageEntry
  | .Valid a, off => .Valid (a + off)
  | e, _ => e

/-- The GPU page table, indexed by gpu_addr >>> page_bits. -/
structure MemoryManager where
  page_table : Nat → PageEntry

/-- Rasterizer coherency calls issued by the GPU memory manager. -/
inductive GpuEvent
  | flushAndInvalidate (cpu_addr size : Nat)
  | flushRegion (cpu_addr size : Nat)
  | invalidateRegion (cpu_addr size : Nat)
deriving DecidableEq, Repr

def PageEntryIndex (gpu_addr : Nat) : Nat := gpu_addr >>> page_bits

def GetPageEntry (m : MemoryManager) (gpu_addr : Nat) : PageEntry :=
  m.page_table (PageEntryIndex gpu_addr)

/-- SetPageEntry (memory_manager.cpp lines 98-109); its size argument only
feeds the commented-out device lock tracking and is dropped. -/
def SetPageEntry (m : MemoryManager) (gpu_addr : Nat) (pe : PageEntry) : MemoryManager :=
  ⟨fun i => if i = PageEntryIndex gpu_addr then pe else m.page_table i⟩

/-- Loop of UpdateRange (memory_manager.cpp lines 26-37): one SetPageEntry at
each page-size step of offset below size, installing the entry advanced by
the offset. The remaining_size bookkeeping only selects between SetPageEntry
overloads whose size argument is unused. -/
def UpdateRangeGo (m : MemoryManager) (gpu_addr : Nat) (pe : PageEntry)
    (size offset : Nat) : MemoryManager :=
  if h : offset < size then
    UpdateRangeGo (SetPageEntry m (gpu_addr + offset) (pe.add offset)) gpu_addr pe size
      (offset + page_size)
  else m
termination_by size - offset
decreasing_by
  have hp : 0 < page_size := by decide
  omega

/-- UpdateRange (memory_manager.cpp lines 26-37): returns gpu_addr together
with the updated table. -/
def UpdateRange (m : MemoryManager) (gpu_addr : Nat) (pe : PageEntry) (size : Nat) :
    Nat × MemoryManager :=
  (gpu_addr, UpdateRangeGo m gpu_addr pe size 0)

/-- Map (memory_manager.cpp lines 39-41): installs a run of entries pointing
at cpu_addr. -/
def Map (m : MemoryManager) (cpu_addr gpu_addr size : Nat) : Nat × MemoryManager :=
  UpdateRange m gpu_addr (PageEntry.Valid cpu_addr) size

/-- GpuToCpuAddress (memory_manager.cpp lines 141-148). -/
def GpuToCpuAddress (m : MemoryManager) (gpu_addr : Nat) : Option Nat :=
  let page_entry := GetPageEntry m gpu_addr
  if page_entry.IsValid then some (page_entry.ToAddress + (gpu_addr &&& page_mask))
  else none

/-- Unmap (memory_manager.cpp lines 47-56): an empty range returns at once;
otherwise the source unconditionally dereferences the optional result of
GpuToCpuAddress(gpu_addr) to flush-and-invalidate before clearing the
entries; the dereference of an empty optional is modelled as none. -/
def Unmap (m : MemoryManager) (gpu_addr size : Nat) :
    Option (MemoryManager × List GpuEvent) :=
  if size = 0 then some (m, [])
  else
    match GpuToCpuAddress m gpu_addr with
    | none => none
    | some cpu_addr =>
        some ((UpdateRange m gpu_addr PageEntry.Unmapped size).2,
          [GpuEvent.flushAndInvalidate cpu_addr size])

/-- Destination-buffer update: bytes [pos, pos+len) of dest become
f 0 .. f (len-1); positions beyond the buffer are dropped, as the C++ caller
guarantees capacity. -/
def writeBytesGo (dest : List Nat) (idx pos : Nat) (f : Nat → Nat) (len : Nat) : List Nat :=
  match dest with
  | [] => []
  | b :: rest =>
      (if pos ≤ idx ∧ idx < pos + len then f (idx - pos) else b) ::
        writeBytesGo rest (idx + 1) pos f len

def writeBytes (dest : List Nat) (pos : Nat) (f : Nat → Nat) (len : Nat) : List Nat :=
  writeBytesGo dest 0 pos f len

/-- Loop of MemoryManager.ReadBlock (memory_manager.cpp lines 210-233): per
page chunk, translate the page base address; when it translates, flush the
range through the rasterizer and copy from CPU memory; when it does not, the
destination bytes are left untouched. cpuMem gives the CPU memory byte at
each address, standing for the system.Memory().ReadBlockUnsafe call that
both block-read variants share. -/
def ReadBlockGo (m : MemoryManager) (cpuMem : Nat → Nat) (page_index page_offset : Nat)
    (dest : List Nat) (pos remaining : Nat) (hoff : page_offset < page_size) :
    List Nat × List GpuEvent :=
  if h : remaining = 0 then (dest, [])
  else
    let copy_amount := min (page_size - page_offset) remaining
    match GpuToCpuAddress m (page_index <<< page_bits) with
    | some page_addr =>
        let src_addr := page_addr + page_offset
        let r := ReadBlockGo m cpuMem (page_index + 1) 0
          (writeBytes dest pos (fun i => cpuMem (src_addr + i)) copy_amount)
          (pos + copy_amount) (remaining - copy_amount) (by decide)
        (r.1, GpuEvent.flushRegion src_addr copy_amount :: r.2)
    | none =>
        ReadBlockGo m cpuMem (page_index + 1) 0 dest (pos + copy_amount)
          (remaining - copy_amount) (by decide)
termination_by remaining
decreasing_by
  · omega
  · omega

/-- MemoryManager.ReadBlock (memory_manager.cpp lines 210-233). -/
def ReadBlock (m : MemoryManager) (cpuMem : Nat → Nat) (gpu_src_addr : Nat)
    (dest : List Nat) (size : Nat) : List Nat × List GpuEvent :=
  ReadBlockGo m cpuMem (gpu_src_addr >>> page_bits) (gpu_src_addr &&& page_mask) dest 0 size
    (lt_of_le_of_lt Nat.and_le_right (by decide))

/-- Loop of MemoryManager.ReadBlockUnsafe (memory_manager.cpp lines 235-257):
identical chunking, but without rasterizer flushes, and a page that does not
translate zero-fills its chunk of the destination (memset). -/
def ReadBlockUnsafeGo (m : MemoryManager) (cpuMem : Nat → Nat) (page_index page_offset : Nat)
    (dest : List Nat) (pos remaining : Nat) (hoff : page_offset < page_size) : List Nat :=
  if h : remaining = 0 then dest
  else
    let copy_amount := min (page_size - page_offset) remaining
    match GpuToCpuAddress m (page_index <<< page_bits) with
    | some page_addr =>
        let src_addr := page_addr + page_offset
        ReadBlockUnsafeGo m cpuMem (page_index + 1) 0
          (writeBytes dest pos (fun i => cpuMem (src_addr + i)) copy_amount)
          (pos + copy_amount) (remaining - copy_amount) (by decide)
    | none =>
        ReadBlockUnsafeGo m cpuMem (page_index + 1) 0
          (writeBytes dest pos (fun _ => 0) copy_amount)
          (pos + copy_amount) (remaining - copy_amount) (by decide)
termination_by remaining
decreasing_by
  · omega
  · omega

/-- MemoryManager.ReadBlockUnsafe (memory_manager.cpp lines 235-257). -/
def ReadBlockUnsafe (m : MemoryManager) (cpuMem : Nat → Nat) (gpu_src_addr : Nat)
    (dest : List Nat) (size : Nat) : List Nat :=
  ReadBlockUnsafeGo m cpuMem (gpu_src_addr >>> page_bits) (gpu_src_addr &&& page_mask) dest 0
    size (lt_of_le_of_lt Nat.and_le_right (by decide))

end Tegra

/-! ## Vulkan resource pool and scheduler
(src/video_core/renderer_vulkan/vk_resource_pool.cpp, vk_master_semaphore.h,
vk_scheduler.h) -/

namespace Vulkan

/-- MasterSemaphore (vk_master_semaphore.h): the known GPU tick and the
current logical tick, with the invariant gpu_tick ≤ current_tick maintained
by the scheduler. -/
structure MasterSemaphore where
  gpu_tick : Nat
  current_tick : Nat

/-- MasterSemaphore.IsFree (vk_master_semaphore.h lines 33-35): a tick
already hit by the GPU. -/
def MasterSemaphore.IsFree (ms : MasterSemaphore) (tick : Nat) : Bool :=
  decide (tick ≤ ms.gpu_tick)

/-- ResourcePool state (vk_resource_pool.h): the grow step, the rotating
hint, and the tick tagged on each slot. -/
structure ResourcePool where
  grow_step : Nat
  free_iterator : Nat
  ticks : List Nat

/-- Search lambda of CommitResource (vk_resource_pool.cpp lines 21-29): the
first index in [b, e) whose tagged tick the semaphore reports free. The C++
lambda also tags the found slot with the current tick; the model tags it in
CommitResource right after, touching exactly the same slot. -/
def searchFree (ms : MasterSemaphore) (ticks : List Nat) (b e : Nat) : Option Nat :=
  if h : b < e then
    if ms.IsFree (ticks.getD b 0) then some b
    else searchFree ms ticks (b + 1) e
  else none
termination_by e - b

/-- CommitResource (vk_resource_pool.cpp lines 17-46). The Refresh call is
modelled by the caller passing the refreshed semaphore state. Grow
(lines 57-61) appends grow_step zero-initialized slots (std::vector resize
value-initializes; the virtual Allocate call creates backend resources and
is not observable here); ManageOverflow (lines 48-55) returns the first
freshly allocated slot, the old capacity. -/
def CommitResource (pool : ResourcePool) (ms : MasterSemaphore) : Nat × ResourcePool :=
  match searchFree ms pool.ticks pool.free_iterator pool.ticks.length with
  | some i =>
      (i, { pool with ticks := pool.ticks.set i ms.current_tick,
                      free_iterator := (i + 1) % pool.ticks.length })
  | none =>
    match searchFree ms pool.ticks 0 pool.free_iterator with
    | some i =>
        (i, { pool with ticks := pool.ticks.set i ms.current_tick,
                        free_iterator := (i + 1) % pool.ticks.length })
    | none =>
        let old_capacity := pool.ticks.length
        let grown := pool.ticks ++ List.replicate pool.grow_step 0
        (old_capacity,
          { pool with ticks := grown.set old_capacity ms.current_tick,
                      free_iterator := (old_capacity + 1) % grown.length })

/-- Fixed arena capacity of a command chunk (vk_scheduler.h line 157):
std.array of 0x8000 bytes. -/
def chunk_data_size : Nat := 0x8000

/-- CommandChunk (vk_scheduler.h lines 121-158): the arena fill offset and
the recorded commands; the intrusive first/last linked list is represented
by the recorded list, and a command of type α stands for the type-erased
closure. -/
structure CommandChunk (α : Type) where
  command_offset : Nat
  recorded : List α

def CommandChunk.empty {α : Type} : CommandChunk α := ⟨0, []⟩

/-- CommandChunk.Record (vk_scheduler.h lines 125-146) for a command whose
TypedCommand wrapper occupies sz bytes (the static size bound demands
sz < chunk_data_size): fails when the command would overflow the arena,
else appends it and advances the offset. -/
def CommandChunk.Record {α : Type} (c : CommandChunk α) (cmd : α) (sz : Nat) :
    Bool × CommandChunk α :=
  if c.command_offset > chunk_data_size - sz then (false, c)
  else (true, ⟨c.command_offset + sz, c.recorded ++ [cmd]⟩)

/-- Scheduler state visible to Record: the chunk being filled and the worker
queue of dispatched chunks. -/
structure SchedulerState (α : Type) where
  chunk : CommandChunk α
  chunk_queue : List (CommandChunk α)

/-- Modelled from the spec: DispatchWork (vk_scheduler.cpp is not in the
source tree) — hands the current chunk to the worker queue and acquires a
fresh chunk; an empty chunk is not dispatched. -/
def DispatchWork {α : Type} (s : SchedulerState α) : SchedulerState α :=
  if s.chunk.command_offset = 0 then s
  else ⟨CommandChunk.empty, s.chunk_queue ++ [s.chunk]⟩

/-- VKScheduler.Record (vk_scheduler.h lines 71-78): try the current chunk;
on failure dispatch it and retry on the fresh chunk, discarding the second
result as the source does. -/
def Record {α : Type} (s : SchedulerState α) (cmd : α) (sz : Nat) : SchedulerState α :=
  let r := s.chunk.Record cmd sz
  if r.1 then { s with chunk := r.2 }
  else
    let s2 := DispatchWork s
    { s2 with chunk := (s2.chunk.Record cmd sz).2 }

/-- All commands recorded so far, in dispatch-then-current order. -/
def allRecorded {α : Type} (s : SchedulerState α) : List α :=
  (s.chunk_queue.map CommandChunk.recorded).flatten ++ s.chunk.recorded

end Vulkan

/-! ## Texture/surface cache (src/video_core/texture_cache/texture_cache.h)

TSurface shared pointers are modelled as Surface values carrying a unique
id: two occurrences with the same id denote the same C++ object, and a
mutation of a surface is propagated to every index holding its id
(updateById), mirroring shared-object semantics. Calls into the backend
(surface creation, uploads, downloads, image copies) and into the
rasterizer are recorded as events. -/

namespace VideoCommon

/-- VideoCore.Surface.SurfaceTarget. -/
inductive SurfaceTarget
  | Texture1D
  | Texture2D
  | Texture3D
  | Texture1DArray
  | Texture2DArray
  | TextureCubemap
  | TextureCubeArray
deriving DecidableEq, Repr

/-- Modelled from the spec: SurfaceParams (surface_params.h is not in the
source tree) — the immutable descriptor used both as cache key and
structural comparator: target, pixel format (by its numeric enum value),
surface type class, tiling parameters, extents and level count. The guest
size in bytes, computed from the geometry in the source, is carried as a
field. -/
structure SurfaceParams where
  target : SurfaceTarget
  pixel_format : Nat
  type : Nat
  is_tiled : Bool
  block_width : Nat
  block_height : Nat
  block_depth : Nat
  width : Nat
  height : Nat
  depth : Nat
  pitch : Nat
  num_levels : Nat
  guest_size_in_bytes : Nat
deriving DecidableEq, Repr

/-- Modelled from the spec: SurfaceParams.ConvertWidth (surface_params.h is
not in the source tree) converts an extent between the block layouts of two
pixel formats; formats are abstract numerals here, so the extent is carried
unchanged. -/
def ConvertWidth (w pf_from pf_to : Nat) : Nat := w

/-- Modelled from the spec: SurfaceParams.ConvertHeight, see ConvertWidth. -/
def ConvertHeight (h pf_from pf_to : Nat) : Nat := h

/-- Modelled from the spec: the cached surface state of surface_base.h
(not in the source tree): addresses, parameters, registration and coherency
flags, render-target index (none encodes NO_RT) and the modification tick. -/
structure Surface where
  id : Nat
  gpu_addr : Nat
  cpu_addr : Nat
  params : SurfaceParams
  modification_tick : Nat
  modified : Bool
  registered : Bool
  memory_marked : Bool
  sync_pending : Bool
  render_target : Option Nat
  is_protected : Bool
deriving DecidableEq, Repr

instance : Inhabited Surface :=
  ⟨{ id := 0, gpu_addr := 0, cpu_addr := 0,
     params := { target := .Texture2D, pixel_format := 0, type := 0, is_tiled := false,
                 block_width := 0, block_height := 0, block_depth := 0,
                 width := 0, height := 0, depth := 0, pitch := 0,
                 num_levels := 1, guest_size_in_bytes := 0 },
     modification_tick := 0, modified := false, registered := false,
     memory_marked := false, sync_pending := false, render_target := none,
     is_protected := false }⟩

def Surface.GetCpuAddrEnd (s : Surface) : Nat :=
  s.cpu_addr + s.params.guest_size_in_bytes

/-- Overlaps(start, end): the surface byte range intersects [start, end). -/
def Surface.Overlaps (s : Surface) (start endp : Nat) : Bool :=
  decide (s.cpu_addr < endp) && decide (start < s.GetCpuAddrEnd)

/-- Views into a surface: the whole-surface main view, a re-targeted
overview, a carved sub-view, or a 3D-slice view. -/
inductive TView
  | main (sid : Nat)
  | overview (sid : Nat) (target : SurfaceTarget)
  | sub (sid gpu_addr size : Nat)
  | view3D (sid slice depth : Nat)
deriving DecidableEq, Repr

def Surface.GetMainView (s : Surface) : TView := .main s.id

def Surface.EmplaceOverview (s : Surface) (params : SurfaceParams) : TView :=
  .overview s.id params.target

/-- Modelled from the spec: EmplaceView carves a mip/layer view out of the
surface when the candidate range lies inside it. -/
def Surface.EmplaceView (s : Surface) (params : SurfaceParams) (view_addr size : Nat) :
    Option TView :=
  if s.gpu_addr ≤ view_addr ∧ view_addr + size ≤ s.gpu_addr + s.params.guest_size_in_bytes
  then some (.sub s.id view_addr size)
  else none

/-- Modelled from the spec: Emplace3DView yields a slice view of a 3D
surface. -/
def Surface.Emplace3DView (s : Surface) (slice depth base_level num_levels : Nat) : TView :=
  .view3D s.id slice depth

/-- MatchTopologyResult of surface_base.h. -/
inductive MatchTopologyResult
  | FullMatch
  | CompressUnmatch
  | None
deriving DecidableEq, Repr

/-- MatchStructureResult of surface_base.h. -/
inductive MatchStructureResult
  | FullMatch
  | SemiMatch
  | None
deriving DecidableEq, Repr

/-- Modelled from the spec: MatchesTopology (surface_base.h is not in the
source tree) — coarse shape compatibility: the tiling class, and for tiled
surfaces the block layout, must coincide. -/
def Surface.MatchesTopology (s : Surface) (rhs : SurfaceParams) : MatchTopologyResult :=
  if s.params.is_tiled = rhs.is_tiled ∧
      (s.params.is_tiled = false ∨
        (s.params.block_width = rhs.block_width ∧ s.params.block_height = rhs.block_height ∧
          s.params.block_depth = rhs.block_depth))
  then .FullMatch
  else .CompressUnmatch

/-- Modelled from the spec: MatchesStructure (surface_base.h is not in the
source tree) — a full match when format, extents and level count coincide,
a semi match when only the format does. -/
def Surface.MatchesStructure (s : Surface) (rhs : SurfaceParams) : MatchStructureResult :=
  if s.params.pixel_format = rhs.pixel_format ∧ s.params.width = rhs.width ∧
      s.params.height = rhs.height ∧ s.params.depth = rhs.depth ∧
      s.params.num_levels = rhs.num_levels
  then .FullMatch
  else if s.params.pixel_format = rhs.pixel_format then .SemiMatch
  else .None

def Surface.MatchFormat (s : Surface) (pixel_format : Nat) : Bool :=
  decide (s.params.pixel_format = pixel_format)

def Surface.MatchTarget (s : Surface) (target : SurfaceTarget) : Bool :=
  decide (s.params.target = target)

/-- IsInside(other_start, other_end): the other range lies inside this
surface's gpu range. -/
def Surface.IsInside (s : Surface) (other_start other_end : Nat) : Bool :=
  decide (s.gpu_addr ≤ other_start) &&
    decide (other_end ≤ s.gpu_addr + s.params.guest_size_in_bytes)

def Surface.IsRenderTarget (s : Surface) : Bool := s.render_target.isSome

/-- Modelled from the spec: GetLayerMipmap resolves a gpu address to the
(layer, mipmap) it starts inside the surface; only the surface start is
resolved under the abstract geometry, other offsets are unresolved. -/
def Surface.GetLayerMipmap (s : Surface) (addr : Nat) : Option (Nat × Nat) :=
  if addr = s.gpu_addr then some (0, 0) else none

/-- Modelled from the spec: GetMipmapSize under the abstract geometry — the
guest size spread evenly over the levels. -/
def Surface.GetMipmapSize (s : Surface) (level : Nat) : Nat :=
  s.params.guest_size_in_bytes / max 1 s.params.num_levels

/-- Modelled from the spec: GetBlockOffsetXYZ of surface_params.h — the
(x, y, z) block coordinate of a guest byte offset; only the depth slice is
resolved, as the z component of offset over the slice size. -/
def SurfaceParams.GetBlockOffsetZ (p : SurfaceParams) (offset : Nat) : Nat :=
  offset / max 1 (p.guest_size_in_bytes / max 1 p.depth)

/-- Recycle strategies of the texture cache (texture_cache.h lines 460-464). -/
inductive RecycleStrategy
  | Ignore
  | Flush
  | BufferCopy
deriving DecidableEq, Repr

/-- Configuration threaded from the settings singleton and the constructor:
the accuracy level read through Settings.IsGPULevelExtreme, and the sibling
format table built in the constructor (none encodes PixelFormat::Invalid). -/
structure TCConfig where
  gpu_level_extreme : Bool
  siblings : Nat → Option Nat

/-- Events of the texture cache: backend and rasterizer calls. -/
inductive TCEvent
  | create (s : Surface)
  | reg (s : Surface)
  | unreg (s : Surface)
  | rtUnreg (s : Surface)
  | unmarkPages (s : Surface)
  | load (s : Surface)
  | download (s : Surface)
  | imgcopy (src dst : Surface)
  | bufcopy (src dst : Surface)
  | regFail (gpu_addr : Nat)
deriving DecidableEq, Repr

/-- The 1 MiB bucket granularity of the range registry
(texture_cache.h line 1269). -/
def registry_page_bits : Nat := 20

/-- Mutable state of the texture cache: the L1 exact-address map, the
page-bucketed range registry, the reserve of unregistered surfaces keyed by
params, the deferred-unregister list, the guard flag and the tick counter;
next_id feeds fresh surface identities for CreateSurface. -/
structure TCState where
  l1_cache : List (Nat × Surface)
  registry : List (Nat × List Surface)
  surface_reserve : List (SurfaceParams × List Surface)
  marked_for_unregister : List Surface
  guard_render_targets : Bool
  ticks : Nat
  next_id : Nat

/-- Association-list lookup by key. -/
def lookupA {β : Type} (l : List (Nat × β)) (k : Nat) : Option β :=
  (l.find? (fun p => decide (p.1 = k))).map Prod.snd

/-- Association-list update: the new binding replaces any binding of k. -/
def setA {β : Type} (l : List (Nat × β)) (k : Nat) (v : β) : List (Nat × β) :=
  (k, v) :: l.filter (fun p => decide (p.1 ≠ k))

/-- Association-list erase by key. -/
def eraseA {β : Type} (l : List (Nat × β)) (k : Nat) : List (Nat × β) :=
  l.filter (fun p => decide (p.1 ≠ k))

/-- Association-list lookup keyed by SurfaceParams (surface_reserve). -/
def lookupP (l : List (SurfaceParams × List Surface)) (k : SurfaceParams) :
    Option (List Surface) :=
  (l.find? (fun p => decide (p.1 = k))).map Prod.snd

def setP (l : List (SurfaceParams × List Surface)) (k : SurfaceParams) (v : List Surface) :
    List (SurfaceParams × List Surface) :=
  (k, v) :: l.filter (fun p => decide (p.1 ≠ k))

/-- Propagate a mutated surface value to every index holding its id,
mirroring the shared_ptr aliasing of the C++ cache. -/
def updateById (st : TCState) (s : Surface) : TCState :=
  let rep := fun t => if t.id = s.id then s else t
  { st with
    l1_cache := st.l1_cache.map (fun p => (p.1, rep p.2)),
    registry := st.registry.map (fun p => (p.1, p.2.map rep)),
    surface_reserve := st.surface_reserve.map (fun p => (p.1, p.2.map rep)),
    marked_for_unregister := st.marked_for_unregister.map rep }

/-- Tick (texture_cache.h lines 322-324): pre-incremented counter. -/
def Tick (st : TCState) : Nat × TCState :=
  (st.ticks + 1, { st with ticks := st.ticks + 1 })

/-- MarkAsModified on a surface, propagated to the cache state. -/
def MarkAsModifiedSt (st : TCState) (s : Surface) (b : Bool) (tick : Nat) :
    TCState × Surface :=
  let s2 := { s with modified := b, modification_tick := tick }
  (updateById st s2, s2)

/-- Append the surface to each registry bucket in [start, endp]. -/
def registryAddRange (reg : List (Nat × List Surface)) (start endp : Nat) (s : Surface) :
    List (Nat × List Surface) :=
  if h : start ≤ endp then
    registryAddRange (setA reg start ((lookupA reg start).getD [] ++ [s])) (start + 1) endp s
  else reg
termination_by endp + 1 - start

/-- Remove the surface (by identity) from each registry bucket in
[start, endp]. -/
def registryRemoveRange (reg : List (Nat × List Surface)) (start endp : Nat) (s : Surface) :
    List (Nat × List Surface) :=
  if h : start ≤ endp then
    registryRemoveRange
      (setA reg start (((lookupA reg start).getD []).filter (fun t => decide (t.id ≠ s.id))))
      (start + 1) endp s
  else reg
termination_by endp + 1 - start

/-- RegisterInnerCache (texture_cache.h lines 1123-1132): inserts the
surface into the L1 exact-address map and every touched registry bucket. -/
def RegisterInnerCache (st : TCState) (s : Surface) : TCState :=
  let start := s.cpu_addr >>> registry_page_bits
  let endp := (s.GetCpuAddrEnd - 1) >>> registry_page_bits
  { st with
    l1_cache := setA st.l1_cache s.cpu_addr s,
    registry := registryAddRange st.registry start endp s }

/-- UnregisterInnerCache (texture_cache.h lines 1134-1144): erases the L1
entry at the surface's cpu address and the surface from every touched
bucket. -/
def UnregisterInnerCache (st : TCState) (s : Surface) : TCState :=
  let start := s.cpu_addr >>> registry_page_bits
  let endp := (s.GetCpuAddrEnd - 1) >>> registry_page_bits
  { st with
    l1_cache := eraseA st.l1_cache s.cpu_addr,
    registry := registryRemoveRange st.registry start endp s }

/-- GetSurfacesInRegion page loop (texture_cache.h lines 1146-1170): walk
the buckets of the range, collecting each overlapping surface once; the
picked-flag de-duplication is modelled by skipping ids already collected. -/
def surfacesInRegionGo (st : TCState) (cpu_addr cpu_addr_end : Nat) (start endp : Nat)
    (acc : List Surface) : List Surface :=
  if h : start ≤ endp then
    let bucket := (lookupA st.registry start).getD []
    let acc2 := bucket.foldl
      (fun a s =>
        if a.any (fun t => decide (t.id = s.id)) || ! s.Overlaps cpu_addr cpu_addr_end then a
        else a ++ [s]) acc
    surfacesInRegionGo st cpu_addr cpu_addr_end (start + 1) endp acc2
  else acc
termination_by endp + 1 - start

/-- GetSurfacesInRegion (texture_cache.h lines 1146-1170). -/
def GetSurfacesInRegion (st : TCState) (cpu_addr size : Nat) : List Surface :=
  if size = 0 then []
  else
    let cpu_addr_end := cpu_addr + size
    surfacesInRegionGo st cpu_addr cpu_addr_end (cpu_addr >>> registry_page_bits)
      ((cpu_addr_end - 1) >>> registry_page_bits) []

/-- Register (texture_cache.h lines 404-418): resolve the cpu address of the
surface through the GPU page table; on failure log and bail, else set the
cpu address, insert into the inner caches, raise the flags and bump the
cached-page counters. -/
def Register (gm : Tegra.MemoryManager) (st : TCState) (s : Surface) :
    TCState × Surface × List TCEvent :=
  match Tegra.GpuToCpuAddress gm s.gpu_addr with
  | none => (st, s, [.regFail s.gpu_addr])
  | some cpu_addr =>
      let s2 := { s with cpu_addr := cpu_addr, registered := true, memory_marked := true }
      (RegisterInnerCache (updateById st s2) s2, s2, [.reg s2])

/-- UnmarkMemory (texture_cache.h lines 420-428). -/
def UnmarkMemory (st : TCState) (s : Surface) : TCState × Surface × List TCEvent :=
  if ! s.memory_marked then (st, s, [])
  else
    let s2 := { s with memory_marked := false }
    (updateById st s2, s2, [.unmarkPages s2])

/-- ReserveSurface (texture_cache.h lines 1172-1174). -/
def ReserveSurface (st : TCState) (params : SurfaceParams) (s : Surface) : TCState :=
  { st with
    surface_reserve :=
      setP st.surface_reserve params ((lookupP st.surface_reserve params).getD [] ++ [s]) }

/-- Unregister (texture_cache.h lines 430-445): protected render targets are
kept while guarding; an unguarded render target marks the dirty flags
(ManageRenderTargetUnregister, modelled as an event); memory is unmarked,
a pending sync is cancelled, the inner caches are cleared and the surface
is parked in the reserve. -/
def Unregister (st : TCState) (s : Surface) : TCState × List TCEvent :=
  if st.guard_render_targets && s.is_protected then (st, [])
  else
    let ev1 : List TCEvent :=
      if ! st.guard_render_targets && s.IsRenderTarget then [.rtUnreg s] else []
    let r2 := UnmarkMemory st s
    let st2 := r2.1
    let s2 := r2.2.1
    let st3 :=
      if s2.sync_pending then
        { st2 with marked_for_unregister :=
            st2.marked_for_unregister.filter (fun t => decide (t.id ≠ s2.id)) }
      else st2
    let s3 := if s2.sync_pending then { s2 with sync_pending := false } else s2
    let st4 := UnregisterInnerCache st3 s3
    let s4 := { s3 with registered := false }
    (ReserveSurface st4 s4.params s4, ev1 ++ r2.2.2 ++ [.unreg s4])

/-- Unregister each overlap in order, accumulating events. -/
def unregisterAll (st : TCState) (surfaces : List Surface) : TCState × List TCEvent :=
  surfaces.foldl
    (fun acc s =>
      let r := Unregister acc.1 s
      (r.1, acc.2 ++ r.2))
    (st, [])

/-- TryGetReservedSurface (texture_cache.h lines 1176-1187): the first
unregistered surface reserved under the same params. -/
def TryGetReservedSurface (st : TCState) (params : SurfaceParams) : Option Surface :=
  match lookupP st.surface_reserve params with
  | none => none
  | some lst => lst.find? (fun s => ! s.registered)

/-- GetUncachedSurface (texture_cache.h lines 447-455): reuse a reserved
surface, re-aiming its gpu address, else create a fresh one (the backend
CreateSurface call is the create event). -/
def GetUncachedSurface (st : TCState) (gpu_addr : Nat) (params : SurfaceParams) :
    TCState × Surface × List TCEvent :=
  match TryGetReservedSurface st params with
  | some s =>
      let s2 := { s with gpu_addr := gpu_addr }
      (updateById st s2, s2, [])
  | none =>
      let s : Surface :=
        { id := st.next_id, gpu_addr := gpu_addr, cpu_addr := 0, params := params,
          modification_tick := 0, modified := false, registered := false,
          memory_marked := false, sync_pending := false, render_target := none,
          is_protected := false }
      ({ st with next_id := st.next_id + 1 }, s, [.create s])

/-- LoadSurface (texture_cache.h lines 1106-1111): upload the guest backing
into the surface (the load event) and clear the modified flag at a fresh
tick. -/
def LoadSurfaceSt (st : TCState) (s : Surface) : TCState × Surface × List TCEvent :=
  let r := Tick st
  let r2 := MarkAsModifiedSt r.2 s false r.1
  (r2.1, r2.2, [.load s])

/-- FlushSurface (texture_cache.h lines 1113-1121): an unmodified surface is
skipped; a modified one is downloaded back to guest memory (the download
event, carrying the pre-flush surface) and cleared at a fresh tick. -/
def FlushSurfaceSt (st : TCState) (s : Surface) : TCState × List TCEvent :=
  if ! s.modified then (st, [])
  else
    let r := Tick st
    let r2 := MarkAsModifiedSt r.2 s false r.1
    (r2.1, [.download s])

/-- FlushRegion (texture_cache.h lines 105-120): collect the overlapping
surfaces, sort them by ascending modification tick and flush each in order.
The std.sort call is modelled by mergeSort under the same
modification-tick comparator (they agree up to the order of ties, which the
comparator does not distinguish); the per-surface mutex release around each
flush is concurrency beyond this sequential model. -/
def FlushRegion (st : TCState) (addr size : Nat) : TCState × List TCEvent :=
  let surfaces := GetSurfacesInRegion st addr size
  if surfaces.isEmpty then (st, [])
  else
    let sorted := surfaces.mergeSort
      (fun a b => decide (a.modification_tick ≤ b.modification_tick))
    sorted.foldl
      (fun acc s =>
        let r := FlushSurfaceSt acc.1 s
        (r.1, acc.2 ++ r.2))
      (st, [])

/-- InvalidateRegion (texture_cache.h lines 61-67). -/
def InvalidateRegion (st : TCState) (addr size : Nat) : TCState × List TCEvent :=
  unregisterAll st (GetSurfacesInRegion st addr size)

/-- The surfaces downloaded to guest memory within an event trace, in
order. -/
def downloadedSurfaces (evs : List TCEvent) : List Surface :=
  evs.filterMap (fun e => match e with | .download s => some s | _ => none)

/-- The surfaces FlushRegion downloads, in flush order. -/
def flushedSurfaces (st : TCState) (addr size : Nat) : List Surface :=
  downloadedSurfaces (FlushRegion st addr size).2

/-- InitializeSurface (texture_cache.h lines 1096-1104): allocate (or pull
from the reserve), register, optionally load from guest memory, and return
the surface with its main view. -/
def InitializeSurface (gm : Tegra.MemoryManager) (st : TCState) (gpu_addr : Nat)
    (params : SurfaceParams) (preserve_contents : Bool) :
    (Surface × TView) × TCState × List TCEvent :=
  let r1 := GetUncachedSurface st gpu_addr params
  let r2 := Register gm r1.1 r1.2.1
  if preserve_contents then
    let r3 := LoadSurfaceSt r2.1 r2.2.1
    ((r3.2.1, r3.2.1.GetMainView), r3.1, r1.2.2 ++ r2.2.2 ++ r3.2.2)
  else
    ((r2.2.1, r2.2.1.GetMainView), r2.1, r1.2.2 ++ r2.2.2)

/-- PickStrategy (texture_cache.h lines 498-521). -/
def PickStrategy (cfg : TCConfig) (overlaps : List Surface) (params : SurfaceParams)
    (untopological : MatchTopologyResult) : RecycleStrategy :=
  if cfg.gpu_level_extreme then .Flush
  else if params.target = .Texture3D then .Flush
  else if overlaps.any (fun s => decide (s.params.target = SurfaceTarget.Texture3D)) then .Flush
  else if untopological = .CompressUnmatch then .Flush
  else if untopological = .FullMatch ∧ params.is_tiled = false then .Flush
  else .Ignore

/-- RecycleSurface (texture_cache.h lines 538-569): unregister every
overlap, then either simply reinitialize (Ignore), flush the overlaps in
ascending modification-tick order first (Flush), or hand the contents over
by buffer copy (BufferCopy, unreachable from PickStrategy but present in
the source switch). -/
def RecycleSurface (cfg : TCConfig) (gm : Tegra.MemoryManager) (st : TCState)
    (overlaps : List Surface) (params : SurfaceParams) (gpu_addr : Nat)
    (preserve_contents : Bool) (untopological : MatchTopologyResult) :
    (Surface × TView) × TCState × List TCEvent :=
  let do_load := preserve_contents && cfg.gpu_level_extreme
  let r1 := unregisterAll st overlaps
  match PickStrategy cfg overlaps params untopological with
  | .Ignore =>
      let r2 := InitializeSurface gm r1.1 gpu_addr params do_load
      (r2.1, r2.2.1, r1.2 ++ r2.2.2)
  | .Flush =>
      let sorted := overlaps.mergeSort
        (fun a b => decide (a.modification_tick ≤ b.modification_tick))
      let r2 := sorted.foldl
        (fun acc s =>
          let r := FlushSurfaceSt acc.1 s
          (r.1, acc.2 ++ r.2))
        (r1.1, r1.2)
      let r3 := InitializeSurface gm r2.1 gpu_addr params preserve_contents
      (r3.1, r3.2.1, r2.2 ++ r3.2.2)
  | .BufferCopy =>
      let r2 := GetUncachedSurface r1.1 gpu_addr params
      let ns := r2.2.1
      ((ns, ns.GetMainView), r2.1,
        r1.2 ++ r2.2.2 ++ [.bufcopy (overlaps.headD default) ns])

/-- RebuildSurface (texture_cache.h lines 579-608): recreate the surface
under new params (keeping the old format when a sibling-format
reinterpretation applies off the render path), move the contents across — a
buffer copy when the surface types differ and accuracy is extreme, image
copies of the broken-down bricks otherwise (one event under the abstract
geometry) — then swap the registration and inherit the modified flag at a
fresh tick. -/
def RebuildSurface (cfg : TCConfig) (gm : Tegra.MemoryManager) (st : TCState)
    (current_surface : Surface) (params : SurfaceParams) (is_render : Bool) :
    (Surface × TView) × TCState × List TCEvent :=
  let gpu_addr := current_surface.gpu_addr
  let cr_params := current_surface.params
  let r1 :=
    if cr_params.pixel_format ≠ params.pixel_format ∧ is_render = false ∧
        cfg.siblings cr_params.pixel_format = some params.pixel_format then
      GetUncachedSurface st gpu_addr
        { params with pixel_format := cr_params.pixel_format, type := cr_params.type }
    else
      GetUncachedSurface st gpu_addr params
  let new_surface := r1.2.1
  let final_params := new_surface.params
  let ev2 : List TCEvent :=
    if cr_params.type ≠ final_params.type then
      if cfg.gpu_level_extreme then [.bufcopy current_surface new_surface] else []
    else [.imgcopy current_surface new_surface]
  let r3 := Unregister r1.1 current_surface
  let r4 := Register gm r3.1 new_surface
  let r5 := Tick r4.1
  let r6 := MarkAsModifiedSt r5.2 r4.2.1 current_surface.modified r5.1
  ((r6.2, r6.2.GetMainView), r6.1, r1.2.2 ++ ev2 ++ r3.2 ++ r4.2.2)

/-- ManageStructuralMatch (texture_cache.h lines 620-637): on a full
structural match return the main view (or an overview when only the target
differs); a format mirage that is a sibling reinterpretation off the render
path is also accepted; otherwise the surface is rebuilt. -/
def ManageStructuralMatch (cfg : TCConfig) (gm : Tegra.MemoryManager) (st : TCState)
    (current_surface : Surface) (params : SurfaceParams) (is_render : Bool) :
    (Surface × TView) × TCState × List TCEvent :=
  let is_mirage := ! current_surface.MatchFormat params.pixel_format
  let matches_target := current_surface.MatchTarget params.target
  let match_check : (Surface × TView) × TCState × List TCEvent :=
    if matches_target then ((current_surface, current_surface.GetMainView), st, [])
    else ((current_surface, current_surface.EmplaceOverview params), st, [])
  if ! is_mirage then match_check
  else if is_render = false ∧
      cfg.siblings current_surface.params.pixel_format = some params.pixel_format then
    match_check
  else RebuildSurface cfg gm st current_surface params is_render

/-- Predicate of the reconstruction loop of TryReconstructSurface: the
overlap resolves to a layer/mipmap of the new surface with a matching
mipmap size. -/
def reconstructPasses (new_surface s : Surface) : Bool :=
  match new_surface.GetLayerMipmap s.gpu_addr with
  | none => false
  | some lm => decide (new_surface.GetMipmapSize lm.2 = s.GetMipmapSize 0)

/-- TryReconstructSurface (texture_cache.h lines 649-711): never applies to
a 3D candidate; with no modified overlap the new surface is loaded from
guest memory outright; otherwise each overlap passing the layer/mipmap
geometry test is copied in (one image-copy event each under the abstract
geometry), and reconstruction is abandoned — with the creation side effects
kept, as in the source — when nothing passed, or when accuracy is extreme
and not all overlaps passed. -/
def TryReconstructSurface (cfg : TCConfig) (gm : Tegra.MemoryManager) (st : TCState)
    (overlaps : List Surface) (params : SurfaceParams) (gpu_addr : Nat) :
    Option (Surface × TView) × TCState × List TCEvent :=
  if params.target = .Texture3D then (none, st, [])
  else
    let r1 := GetUncachedSurface st gpu_addr params
    let new_surface := r1.2.1
    if overlaps.all (fun s => ! s.modified) then
      let r2 := LoadSurfaceSt r1.1 new_surface
      let r3 := unregisterAll r2.1 overlaps
      let r4 := Register gm r3.1 r2.2.1
      (some (r4.2.1, r4.2.1.GetMainView), r4.1,
        r1.2.2 ++ r2.2.2 ++ r3.2 ++ r4.2.2)
    else
      let passed := overlaps.filter (reconstructPasses new_surface)
      let copy_evs := passed.map (fun s => TCEvent.imgcopy s new_surface)
      if passed.length = 0 then (none, r1.1, r1.2.2 ++ copy_evs)
      else if cfg.gpu_level_extreme ∧ passed.length ≠ overlaps.length then
        (none, r1.1, r1.2.2 ++ copy_evs)
      else
        let modified := overlaps.any (fun s => s.modified)
        let r2 := unregisterAll r1.1 overlaps
        let r3 := Tick r2.1
        let r4 := MarkAsModifiedSt r3.2 new_surface modified r3.1
        let r5 := Register gm r4.1 r4.2
        (some (r5.2.1, r5.2.1.GetMainView), r5.1,
          r1.2.2 ++ copy_evs ++ r2.2 ++ r5.2.2)

/-- Loop of the non-3D-candidate path of Manage3DSurfaces
(texture_cache.h lines 730-747): early exits either settle the call or
abandon it; falling through the loop initializes a fresh surface. -/
def manage3DNon3DLoop (cfg : TCConfig) (gm : Tegra.MemoryManager) (st : TCState)
    (overlaps_size : Nat) (params : SurfaceParams) (gpu_addr cpu_addr : Nat)
    (preserve_contents : Bool) :
    List Surface → Option (Option (Surface × TView) × TCState × List TCEvent)
  | [] => Option.none
  | surface :: rest =>
    if ! surface.MatchTarget params.target then
      if overlaps_size = 1 ∧ surface.cpu_addr = cpu_addr then
        if cfg.gpu_level_extreme then some (none, st, [])
        else
          let r1 := Unregister st surface
          let r2 := InitializeSurface gm r1.1 gpu_addr params preserve_contents
          some (some r2.1, r2.2.1, r1.2 ++ r2.2.2)
      else some (none, st, [])
    else if surface.cpu_addr ≠ cpu_addr then
      manage3DNon3DLoop cfg gm st overlaps_size params gpu_addr cpu_addr preserve_contents rest
    else if surface.MatchesStructure params = .FullMatch then
      some (some (surface, surface.GetMainView), st, [])
    else
      manage3DNon3DLoop cfg gm st overlaps_size params gpu_addr cpu_addr preserve_contents rest

/-- Slice-compatibility loop of the 3D reconstruction path of
Manage3DSurfaces (texture_cache.h lines 774-790): each overlap must be a 2D
slice with matching height and block layout; a failure abandons the call,
keeping the copies already issued, as in the source. -/
def manage3DBuild (params : SurfaceParams) (new_surface : Surface) :
    List Surface → Bool → List TCEvent → Option Bool × List TCEvent
  | [], modified, evs => (some modified, evs)
  | s :: rest, modified, evs =>
    if s.params.target ≠ SurfaceTarget.Texture2D ∨ s.params.height ≠ params.height ∨
        s.params.block_depth ≠ params.block_depth ∨
        s.params.block_height ≠ params.block_height then
      (none, evs)
    else
      manage3DBuild params new_surface rest (modified || s.modified)
        (evs ++ [.imgcopy s new_surface])

/-- Manage3DSurfaces (texture_cache.h lines 725-799): HLE reconstruction of
3D textures built slice-by-slice, including the non-3D-candidate loop over
3D overlaps; a first-component none means falling back to the LLE path. -/
def Manage3DSurfaces (cfg : TCConfig) (gm : Tegra.MemoryManager) (st : TCState)
    (overlaps : List Surface) (params : SurfaceParams) (gpu_addr cpu_addr : Nat)
    (preserve_contents : Bool) :
    Option (Surface × TView) × TCState × List TCEvent :=
  if params.target ≠ .Texture3D then
    match manage3DNon3DLoop cfg gm st overlaps.length params gpu_addr cpu_addr
        preserve_contents overlaps with
    | some r => r
    | none =>
        let r := InitializeSurface gm st gpu_addr params preserve_contents
        (some r.1, r.2.1, r.2.2)
  else if params.num_levels > 1 then (none, st, [])
  else
    let sliced :=
      match overlaps with
      | [surface] =>
          if surface.params.num_levels = 1 ∧ surface.cpu_addr ≤ cpu_addr then
            let offset := cpu_addr - surface.cpu_addr
            let slice := params.GetBlockOffsetZ offset
            if slice < surface.params.depth then
              some (surface, surface.Emplace3DView slice params.depth 0 1)
            else none
          else none
      | _ => none
    match sliced with
    | some r => (some r, st, [])
    | none =>
        let r1 := GetUncachedSurface st gpu_addr params
        let new_surface := r1.2.1
        match manage3DBuild params new_surface overlaps false [] with
        | (none, evs) => (none, r1.1, r1.2.2 ++ evs)
        | (some modified, evs) =>
            let r2 := unregisterAll r1.1 overlaps
            let r3 := Tick r2.1
            let r4 := MarkAsModifiedSt r3.2 new_surface modified r3.1
            let r5 := Register gm r4.1 r4.2
            (some (r5.2.1, r5.2.1.GetMainView), r5.1,
              r1.2.2 ++ evs ++ r2.2 ++ r5.2.2)

/-- Steps 2 and 3 of GetSurface (texture_cache.h lines 854-939), the
fallthrough target of the L1 branch: gather the overlaps, and resolve the
candidate against them. -/
def GetSurfaceStep2 (cfg : TCConfig) (gm : Tegra.MemoryManager) (st : TCState)
    (gpu_addr cpu_addr : Nat) (params : SurfaceParams)
    (preserve_contents is_render : Bool) :
    (Surface × TView) × TCState × List TCEvent :=
  let candidate_size := params.guest_size_in_bytes
  let overlaps := GetSurfacesInRegion st cpu_addr candidate_size
  if overlaps.isEmpty then InitializeSurface gm st gpu_addr params preserve_contents
  else
    match overlaps.find?
        (fun s => ! decide (s.MatchesTopology params = MatchTopologyResult.FullMatch)) with
    | some sbad =>
        RecycleSurface cfg gm st overlaps params gpu_addr preserve_contents
          (sbad.MatchesTopology params)
    | none =>
      let after3d :=
        if params.block_depth > 0 then
          Manage3DSurfaces cfg gm st overlaps params gpu_addr cpu_addr preserve_contents
        else (none, st, [])
      match after3d with
      | (some r, st1, ev1) => (r, st1, ev1)
      | (none, st1, ev1) =>
        match overlaps with
        | [current_surface] =>
          if ! current_surface.IsInside gpu_addr (gpu_addr + candidate_size) then
            match TryReconstructSurface cfg gm st1 overlaps params gpu_addr with
            | (some r, st2, ev2) => (r, st2, ev1 ++ ev2)
            | (none, st2, ev2) =>
                let r3 := RecycleSurface cfg gm st2 overlaps params gpu_addr
                  preserve_contents .FullMatch
                (r3.1, r3.2.1, ev1 ++ ev2 ++ r3.2.2)
          else
            match current_surface.EmplaceView params gpu_addr candidate_size with
            | some view =>
              if ! current_surface.MatchFormat params.pixel_format then
                let old_params := current_surface.params
                let new_params :=
                  { old_params with
                    width := ConvertWidth old_params.width old_params.pixel_format
                      params.pixel_format,
                    height := ConvertHeight old_params.height old_params.pixel_format
                      params.pixel_format,
                    pixel_format := params.pixel_format }
                let pair := RebuildSurface cfg gm st1 current_surface new_params is_render
                match pair.1.1.EmplaceView params gpu_addr candidate_size with
                | some mirage_view => ((pair.1.1, mirage_view), pair.2.1, ev1 ++ pair.2.2)
                | none =>
                    let r3 := RecycleSurface cfg gm pair.2.1 overlaps params gpu_addr
                      preserve_contents .FullMatch
                    (r3.1, r3.2.1, ev1 ++ pair.2.2 ++ r3.2.2)
              else ((current_surface, view), st1, ev1)
            | none =>
                let r3 := RecycleSurface cfg gm st1 overlaps params gpu_addr
                  preserve_contents .FullMatch
                (r3.1, r3.2.1, ev1 ++ r3.2.2)
        | _ =>
          match TryReconstructSurface cfg gm st1 overlaps params gpu_addr with
          | (some r, st2, ev2) => (r, st2, ev1 ++ ev2)
          | (none, st2, ev2) =>
              let r3 := RecycleSurface cfg gm st2 overlaps params gpu_addr
                preserve_contents .FullMatch
              (r3.1, r3.2.1, ev1 ++ ev2 ++ r3.2.2)

/-- GetSurface (texture_cache.h lines 824-939). Step 1 checks the L1
exact-address map: a topology mismatch recycles at once; a structural full
match is settled by ManageStructuralMatch and a semi match by
RebuildSurface, the 3D guard permitting; otherwise control falls through to
the region scan of GetSurfaceStep2. -/
def GetSurface (cfg : TCConfig) (gm : Tegra.MemoryManager) (st : TCState)
    (gpu_addr cpu_addr : Nat) (params : SurfaceParams)
    (preserve_contents is_render : Bool) :
    (Surface × TView) × TCState × List TCEvent :=
  match lookupA st.l1_cache cpu_addr with
  | some current_surface =>
    let topological_result := current_surface.MatchesTopology params
    if topological_result ≠ .FullMatch then
      RecycleSurface cfg gm st [current_surface] params gpu_addr preserve_contents
        topological_result
    else
      let struct_result := current_surface.MatchesStructure params
      let handled : Option ((Surface × TView) × TCState × List TCEvent) :=
        if struct_result ≠ .None then
          let old_params := current_surface.params
          let not_3d := params.target ≠ .Texture3D ∧ old_params.target ≠ .Texture3D
          if not_3d ∨ current_surface.MatchTarget params.target then
            if struct_result = .FullMatch then
              some (ManageStructuralMatch cfg gm st current_surface params is_render)
            else
              some (RebuildSurface cfg gm st current_surface params is_render)
          else none
        else none
      match handled with
      | some r => r
      | none =>
          GetSurfaceStep2 cfg gm st gpu_addr cpu_addr params preserve_contents is_render
  | none => GetSurfaceStep2 cfg gm st gpu_addr cpu_addr params preserve_contents is_render

end VideoCommon

/-! ## Theorems -/

namespace CoreMemory

/-- MapPages preserves the page-table invariant whenever an Unmapped run is
installed with a null target, as every caller in memory.cpp does. -/
theorem mapPages_preserves_pageInv (st : Impl) (base size target : Nat) (type : PageType)
    (st2 : Impl) (hinv : PageInv st) (hzero : type = PageType.Unmapped → target = 0)
    (h : MapPages st base size target type = some st2) : PageInv st2 := by
  unfold MapPages at h
  by_cases hc : target = 0 ∧ type = PageType.Memory
  · simp [hc] at h
  · simp only [if_neg hc, Option.some.injEq] at h
    subst h
    intro p hp
    simp only at hp ⊢
    by_cases hin : base ≤ p ∧ p < base + size
    · simp only [if_pos hin] at hp ⊢
      subst hp
      simp [hzero rfl]
    · simp only [if_neg hin] at hp ⊢
      exact hinv p hp

/-- Claim C2: on a page whose attribute is Unmapped, WriteExclusive reports
success, performs no write and merely logs; on a page with a valid direct
host pointer it has compare-and-swap semantics — it returns true exactly
when the stored value equalled the expected one, and exactly in that case
the new value is stored, all other memory being untouched. -/
theorem C2_writeExclusive_cas (st : Impl) (addr data expected sz : Nat)
    (hinv : PageInv st) :
    (st.attributes (addr >>> PAGE_BITS) = PageType.Unmapped →
      WriteExclusive st addr data expected sz = .ok true st [] true) ∧
    (st.pointers (addr >>> PAGE_BITS) = true →
      ∃ r st2,
        WriteExclusive st addr data expected sz = .ok r st2 [] false ∧
        (r = true ↔ st.mem addr = expected) ∧
        st2.mem addr = (if st.mem addr = expected then data else st.mem addr) ∧
        (∀ a, a ≠ addr → st2.mem a = st.mem a) ∧
        st2.pointers = st.pointers ∧ st2.attributes = st.attributes) := by
  constructor
  · intro hattr
    have hptr : st.pointers (addr >>> PAGE_BITS) = false := hinv _ hattr
    unfold WriteExclusive
    rw [hptr]
    simp [hattr]
  · intro hptr
    unfold WriteExclusive
    rw [hptr]
    simp only [if_true]
    by_cases hc : st.mem addr = expected
    · refine ⟨true, writeMem st addr data, ?_, ?_, ?_, ?_, rfl, rfl⟩
      · simp [AtomicCompareAndSwap, hc]
      · simp [hc]
      · simp [writeMem, hc]
      · intro a ha
        simp [writeMem, ha]
    · refine ⟨false, st, ?_, ?_, ?_, fun a _ => rfl, rfl, rfl⟩
      · simp [AtomicCompareAndSwap, hc]
      · simp [hc]
      · simp [hc]

/-- Witness for C2 at concrete inputs: a table where every page has a direct
pointer (so PageInv holds vacuously), memory holding 7 everywhere, and a
compare-and-swap of 5 expecting 7 at address 0. -/
theorem C2_writeExclusive_cas_witness :
    ∃ r st2,
      WriteExclusive ⟨fun _ => true, fun _ => PageType.Memory, fun _ => 7⟩ 0 5 7 4 =
        .ok r st2 [] false ∧
      (r = true ↔ (7 : Nat) = 7) ∧
      st2.mem 0 = (if (7 : Nat) = 7 then 5 else 7) ∧
      (∀ a, a ≠ 0 → st2.mem a = 7) ∧
      st2.pointers = (fun _ => true) ∧ st2.attributes = (fun _ => PageType.Memory) :=
  (C2_writeExclusive_cas ⟨fun _ => true, fun _ => PageType.Memory, fun _ => 7⟩ 0 5 7 4
    (fun _ h => nomatch h)).2 rfl

/-- Claim C4: a read of an Unmapped page returns 0 and a write to one leaves
all memory unchanged, both merely logging an error and never fatal, while
accesses through a page with attribute Memory and a valid pointer behave as
ordinary loads and stores. -/
theorem C4_unmapped_access_tolerated (st : Impl) (addr data sz : Nat) (hinv : PageInv st) :
    (st.attributes (addr >>> PAGE_BITS) = PageType.Unmapped →
      Read st addr sz = .ok 0 [] true ∧ Write st addr data sz = .ok st [] true) ∧
    (st.attributes (addr >>> PAGE_BITS) = PageType.Memory →
      st.pointers (addr >>> PAGE_BITS) = true →
      Read st addr sz = .ok (st.mem addr) [] false ∧
      ∃ st2, Write st addr data sz = .ok st2 [] false ∧
        st2.mem addr = data ∧ (∀ a, a ≠ addr → st2.mem a = st.mem a) ∧
        st2.pointers = st.pointers ∧ st2.attributes = st.attributes) := by
  constructor
  · intro hattr
    have hptr : st.pointers (addr >>> PAGE_BITS) = false := hinv _ hattr
    unfold Read Write
    rw [hptr]
    simp [hattr]
  · intro _ hptr
    unfold Read Write
    rw [hptr]
    refine ⟨rfl, writeMem st addr data, rfl, ?_, ?_, rfl, rfl⟩
    · simp [writeMem]
    · intro a ha
      simp [writeMem, ha]

/-- Witness for C4 at concrete inputs: part one on a fully unmapped table
(where the spec scenario reads 0 after unmapping), part two on a fully
mapped table. -/
theorem C4_unmapped_access_tolerated_witness :
    (Read ⟨fun _ => false, fun _ => PageType.Unmapped, fun _ => 3⟩ 4100 4 = .ok 0 [] true ∧
      Write ⟨fun _ => false, fun _ => PageType.Unmapped, fun _ => 3⟩ 4100 9 4 =
        .ok ⟨fun _ => false, fun _ => PageType.Unmapped, fun _ => 3⟩ [] true) ∧
    (Read ⟨fun _ => true, fun _ => PageType.Memory, fun _ => 3⟩ 4100 4 = .ok 3 [] false ∧
      ∃ st2, Write ⟨fun _ => true, fun _ => PageType.Memory, fun _ => 3⟩ 4100 9 4 =
          .ok st2 [] false ∧
        st2.mem 4100 = 9 ∧ (∀ a, a ≠ 4100 → st2.mem a = 3) ∧
        st2.pointers = (fun _ => true) ∧ st2.attributes = (fun _ => PageType.Memory)) :=
  ⟨(C4_unmapped_access_tolerated ⟨fun _ => false, fun _ => PageType.Unmapped, fun _ => 3⟩
      4100 9 4 (fun _ _ => rfl)).1 rfl,
    (C4_unmapped_access_tolerated ⟨fun _ => true, fun _ => PageType.Memory, fun _ => 3⟩
      4100 9 4 (fun _ h => nomatch h)).2 rfl rfl⟩

end CoreMemory

namespace Fermi2D

/-- Claim C3: a Corner-origin blit with source rectangle [0,0,64,64] in a
64x64 source (unit source offset, 2.0 fixed-point scale so that the source
span is 64) and destination rectangle [0,0,32,32] in a 32x32 destination is
clipped by the DelimitLine passes to a destination copy rectangle of exactly
32x32 — dst_blit_x2 = 32 and dst_blit_y2 = 32 — not 64x64. -/
theorem C3_blit_clips_to_32x32 :
    HandleSurfaceCopy
      { operation := .SrcCopy, origin := .Corner,
        blit_src_x := 0, blit_src_y := 0,
        blit_du_dx := 2 * 2 ^ 32, blit_dv_dy := 2 * 2 ^ 32,
        blit_dst_x := 0, blit_dst_y := 0,
        blit_dst_width := 32, blit_dst_height := 32,
        src_width := 64, src_height := 64,
        dst_width := 32, dst_height := 32 } =
    some (⟨0, 0, 64, 64⟩, ⟨0, 0, 32, 32⟩) := by decide

end Fermi2D

namespace Tegra

theorem land_page_mask (n : Nat) : n &&& page_mask = n % page_size := by
  show n &&& (2 ^ 16 - 1) = n % 2 ^ 16
  exact Nat.and_pow_two_sub_one_eq_mod n 16

theorem page_size_eq : page_size = 65536 := rfl

theorem shiftRight_page_bits (n : Nat) : n >>> page_bits = n / page_size := by
  show n >>> 16 = n / 2 ^ 16
  exact Nat.shiftRight_eq_div_pow n 16

theorem pageEntryIndex_eq_div (n : Nat) : PageEntryIndex n = n / page_size :=
  shiftRight_page_bits n

theorem shiftLeft_page_bits (n : Nat) : n <<< page_bits = n * page_size := by
  show n <<< 16 = n * 2 ^ 16
  exact Nat.shiftLeft_eq n 16

theorem gpuToCpu_isSome (m : MemoryManager) (x : Nat) :
    (GpuToCpuAddress m x).isSome = (GetPageEntry m x).IsValid := by
  unfold GpuToCpuAddress
  by_cases h : (GetPageEntry m x).IsValid <;> simp [h]

/-- UpdateRangeGo never touches a page index below the one of its starting
offset. -/
theorem updateRangeGo_frame (m : MemoryManager) (gpu_addr : Nat) (pe : PageEntry)
    (size offset : Nat) :
    ∀ idx, idx < PageEntryIndex (gpu_addr + offset) →
      (UpdateRangeGo m gpu_addr pe size offset).page_table idx = m.page_table idx := by
  induction m, gpu_addr, pe, size, offset using UpdateRangeGo.induct with
  | case1 m gpu_addr pe size offset h ih =>
    intro idx hidx
    rw [UpdateRangeGo, dif_pos h]
    have hmono : PageEntryIndex (gpu_addr + offset) ≤
        PageEntryIndex (gpu_addr + (offset + page_size)) := by
      rw [pageEntryIndex_eq_div, pageEntryIndex_eq_div]
      exact Nat.div_le_div_right (by omega)
    rw [ih idx (lt_of_lt_of_le hidx hmono)]
    simp only [SetPageEntry]
    rw [if_neg (Nat.ne_of_lt hidx)]
  | case2 m gpu_addr pe size offset h =>
    intro idx _
    rw [UpdateRangeGo, dif_neg h]

/-- After the UpdateRange loop over an aligned range, the page holding any
in-range byte offset holds the entry advanced to that page start. -/
theorem updateRangeGo_set (m : MemoryManager) (gpu_addr : Nat) (pe : PageEntry)
    (size offset : Nat) :
    gpu_addr % page_size = 0 → offset % page_size = 0 →
    ∀ k, offset ≤ k → k < size →
      (UpdateRangeGo m gpu_addr pe size offset).page_table (PageEntryIndex (gpu_addr + k))
        = pe.add (page_size * (k / page_size)) := by
  induction m, gpu_addr, pe, size, offset using UpdateRangeGo.induct with
  | case1 m gpu_addr pe size offset h ih =>
    intro hg ho k hk1 hk2
    rw [UpdateRangeGo, dif_pos h]
    by_cases hcase : k < offset + page_size
    · rw [page_size_eq] at hg ho hcase
      have hidx : PageEntryIndex (gpu_addr + k) = PageEntryIndex (gpu_addr + offset) := by
        rw [pageEntryIndex_eq_div, pageEntryIndex_eq_div, page_size_eq]
        omega
      have hlt : PageEntryIndex (gpu_addr + offset) <
          PageEntryIndex (gpu_addr + (offset + page_size)) := by
        rw [pageEntryIndex_eq_div, pageEntryIndex_eq_div, page_size_eq]
        omega
      have harg : page_size * (k / page_size) = offset := by
        rw [page_size_eq]
        omega
      rw [hidx, updateRangeGo_frame _ _ _ _ _ _ hlt]
      simp [SetPageEntry, harg]
    · have ho2 : (offset + page_size) % page_size = 0 := by
        rw [Nat.add_mod_right]
        exact ho
      exact ih hg ho2 k (by omega) hk2
  | case2 m gpu_addr pe size offset h =>
    intro _ _ k hk1 hk2
    exact absurd (lt_of_le_of_lt hk1 hk2) h

/-- Claim C6: after Map(cpu_addr, gpu_addr, size) with a page-aligned
gpu_addr, GpuToCpuAddress(gpu_addr + k) returns cpu_addr + k for every
offset k below size. -/
theorem C6_map_gpuToCpu_roundTrip (m : MemoryManager) (cpu_addr gpu_addr size k : Nat)
    (halign : gpu_addr % page_size = 0) (hk : k < size) :
    GpuToCpuAddress (Map m cpu_addr gpu_addr size).2 (gpu_addr + k) = some (cpu_addr + k) := by
  unfold Map UpdateRange GpuToCpuAddress GetPageEntry
  rw [updateRangeGo_set m gpu_addr (PageEntry.Valid cpu_addr) size 0 halign
    (Nat.zero_mod _) k (Nat.zero_le k) hk]
  simp only [PageEntry.add, PageEntry.IsValid, PageEntry.ToAddress, if_true]
  rw [land_page_mask]
  congr 1
  rw [page_size_eq] at halign ⊢
  omega

/-- Witness for C6: mapping one byte of cpu address 3 at gpu address 0
translates offset 0 back to 3. -/
theorem C6_map_gpuToCpu_roundTrip_witness :
    (0 : Nat) % page_size = 0 ∧ (0 : Nat) < 1 ∧
    GpuToCpuAddress (Map (⟨fun _ => PageEntry.Unmapped⟩ : MemoryManager) 3 0 1).2 (0 + 0)
      = some (3 + 0) :=
  ⟨rfl, by decide,
    C6_map_gpuToCpu_roundTrip ⟨fun _ => PageEntry.Unmapped⟩ 3 0 1 0 rfl (by decide)⟩

/-- The ReadBlock and ReadBlockUnsafe loops produce the same destination
bytes whenever every byte address of the chunk range translates. -/
theorem readBlockGo_eq_unsafeGo (m : MemoryManager) (cpuMem : Nat → Nat) :
    ∀ (remaining page_index page_offset : Nat) (dest : List Nat) (pos : Nat)
      (hoff : page_offset < page_size),
      (∀ a, page_index * page_size + page_offset ≤ a →
          a < page_index * page_size + page_offset + remaining →
          (GpuToCpuAddress m a).isSome = true) →
      (ReadBlockGo m cpuMem page_index page_offset dest pos remaining hoff).1 =
        ReadBlockUnsafeGo m cpuMem page_index page_offset dest pos remaining hoff := by
  intro remaining
  induction remaining using Nat.strong_induction_on with
  | _ remaining ih =>
    intro page_index page_offset dest pos hoff H
    rw [ReadBlockGo, ReadBlockUnsafeGo]
    by_cases h0 : remaining = 0
    · simp [h0]
    · rw [dif_neg h0, dif_neg h0]
      have hsome : (GpuToCpuAddress m (page_index <<< page_bits)).isSome = true := by
        have hin := H (page_index * page_size + page_offset) le_rfl (by omega)
        rw [gpuToCpu_isSome] at hin ⊢
        unfold GetPageEntry at hin ⊢
        have hidx : PageEntryIndex (page_index <<< page_bits) =
            PageEntryIndex (page_index * page_size + page_offset) := by
          rw [pageEntryIndex_eq_div, pageEntryIndex_eq_div, shiftLeft_page_bits]
          rw [page_size_eq] at hoff ⊢
          omega
        rw [hidx]
        exact hin
      obtain ⟨pa, hpa⟩ := Option.isSome_iff_exists.mp hsome
      rw [hpa]
      simp only []
      apply ih (remaining - min (page_size - page_offset) remaining) (by omega)
      intro a h1 h2
      refine H a ?_ ?_
      · rw [page_size_eq] at hoff h1 h2 ⊢
        omega
      · rw [page_size_eq] at hoff h1 h2 ⊢
        omega

/-- Claim C8, amended: ReadBlock and ReadBlockUnsafe leave identical bytes
in the destination buffer whenever every address of the range translates
through GpuToCpuAddress (the Unsafe variant then differing only in skipping
the per-chunk rasterizer flush calls); on pages whose translation is
undefined the two differ, as the counterexample shows. -/
theorem C8_readBlock_unsafe_agree_when_mapped (m : MemoryManager) (cpuMem : Nat → Nat)
    (gpu_src_addr : Nat) (dest : List Nat) (size : Nat)
    (hmapped : ∀ a, gpu_src_addr ≤ a → a < gpu_src_addr + size →
      (GpuToCpuAddress m a).isSome = true) :
    (ReadBlock m cpuMem gpu_src_addr dest size).1 =
      ReadBlockUnsafe m cpuMem gpu_src_addr dest size := by
  unfold ReadBlock ReadBlockUnsafe
  apply readBlockGo_eq_unsafeGo
  intro a h1 h2
  rw [shiftRight_page_bits, land_page_mask] at h1 h2
  rw [page_size_eq] at h1 h2
  exact hmapped a (by omega) (by omega)

/-- Witness for the amended C8 on a fully mapped table. -/
theorem C8_readBlock_unsafe_agree_when_mapped_witness :
    (ReadBlock (⟨fun _ => PageEntry.Valid 0⟩ : MemoryManager) (fun a => a + 1) 0 [7, 7] 2).1 =
      ReadBlockUnsafe (⟨fun _ => PageEntry.Valid 0⟩ : MemoryManager) (fun a => a + 1) 0 [7, 7] 2 :=
  C8_readBlock_unsafe_agree_when_mapped ⟨fun _ => PageEntry.Valid 0⟩ (fun a => a + 1) 0 [7, 7] 2
    (fun _ _ _ => rfl)

/-- Counterexample to C8 as stated: over a page whose GpuToCpuAddress is
undefined, ReadBlock leaves the destination byte 5 untouched while
ReadBlockUnsafe zero-fills it, so the two buffers differ. -/
theorem C8_readBlock_unsafe_counterexample :
    ¬ ((ReadBlock (⟨fun _ => PageEntry.Unmapped⟩ : MemoryManager) (fun _ => 9) 0 [5] 1).1 =
        ReadBlockUnsafe (⟨fun _ => PageEntry.Unmapped⟩ : MemoryManager) (fun _ => 9) 0 [5] 1) := by
  unfold ReadBlock ReadBlockUnsafe
  rw [ReadBlockGo, ReadBlockUnsafeGo]
  rw [dif_neg (by decide), dif_neg (by decide)]
  rw [show GpuToCpuAddress (⟨fun _ => PageEntry.Unmapped⟩ : MemoryManager)
      ((0 >>> page_bits) <<< page_bits) = none from rfl]
  simp only []
  rw [ReadBlockGo, ReadBlockUnsafeGo]
  rw [dif_pos (by decide), dif_pos (by decide)]
  decide

/-- Claim C10: Unmap of an empty range returns at once leaving the table
unchanged; when the page containing gpu_addr holds a Valid entry the
unconditionally dereferenced optional is never empty; and without that
precondition — here a repeated Unmap of the same mapped range — the error
branch is reachable. -/
theorem C10_unmap_deref_precondition :
    (∀ (m : MemoryManager) (gpu_addr : Nat), Unmap m gpu_addr 0 = some (m, [])) ∧
    (∀ (m : MemoryManager) (gpu_addr size : Nat), 0 < size →
      (GetPageEntry m gpu_addr).IsValid = true → (Unmap m gpu_addr size).isSome = true) ∧
    (∃ m2 ev,
      Unmap (Map (⟨fun _ => PageEntry.Unmapped⟩ : MemoryManager) 0 0 page_size).2 0 page_size
        = some (m2, ev) ∧
      Unmap m2 0 page_size = none) := by
  refine ⟨fun m g => by simp [Unmap], fun m g size hs hv => ?_, ?_⟩
  · have hsz : ¬ size = 0 := by omega
    unfold Unmap GpuToCpuAddress GetPageEntry
    unfold GetPageEntry at hv
    simp [hv, hsz]
  · have e1 : (Map (⟨fun _ => PageEntry.Unmapped⟩ : MemoryManager) 0 0 page_size).2
        = SetPageEntry ⟨fun _ => PageEntry.Unmapped⟩ 0 (PageEntry.Valid 0) := by
      unfold Map UpdateRange
      rw [UpdateRangeGo, dif_pos (by decide), UpdateRangeGo, dif_neg (by decide)]
      norm_num [PageEntry.add]
    have e2 : GpuToCpuAddress (SetPageEntry ⟨fun _ => PageEntry.Unmapped⟩ 0
        (PageEntry.Valid 0)) 0 = some 0 := by
      simp [GpuToCpuAddress, GetPageEntry, SetPageEntry, PageEntryIndex,
        PageEntry.IsValid, PageEntry.ToAddress]
    have e4 : UpdateRangeGo (SetPageEntry ⟨fun _ => PageEntry.Unmapped⟩ 0 (PageEntry.Valid 0))
        0 PageEntry.Unmapped page_size 0
        = SetPageEntry (SetPageEntry ⟨fun _ => PageEntry.Unmapped⟩ 0 (PageEntry.Valid 0)) 0
            PageEntry.Unmapped := by
      rw [UpdateRangeGo, dif_pos (by decide), UpdateRangeGo, dif_neg (by decide)]
      norm_num [PageEntry.add]
    refine ⟨SetPageEntry (SetPageEntry ⟨fun _ => PageEntry.Unmapped⟩ 0 (PageEntry.Valid 0)) 0
        PageEntry.Unmapped, [GpuEvent.flushAndInvalidate 0 page_size], ?_, ?_⟩
    · rw [e1]
      unfold Unmap
      rw [if_neg (by decide), e2]
      unfold UpdateRange
      rw [e4]
    · unfold Unmap
      rw [if_neg (by decide)]
      have e3 : GpuToCpuAddress (SetPageEntry (SetPageEntry ⟨fun _ => PageEntry.Unmapped⟩ 0
          (PageEntry.Valid 0)) 0 PageEntry.Unmapped) 0 = none := by
        simp [GpuToCpuAddress, GetPageEntry, SetPageEntry, PageEntryIndex, PageEntry.IsValid]
      rw [e3]

/-- Witness for C10 on a table whose every entry is valid. -/
theorem C10_unmap_deref_precondition_witness :
    (Unmap (⟨fun _ => PageEntry.Valid 7⟩ : MemoryManager) 0 page_size).isSome = true :=
  C10_unmap_deref_precondition.2.1 ⟨fun _ => PageEntry.Valid 7⟩ 0 page_size (by decide) rfl

end Tegra

namespace Vulkan

/-- A successful search returns an index inside the scanned interval whose
tagged tick the semaphore reports free. -/
theorem searchFree_some (ms : MasterSemaphore) (ticks : List Nat) :
    ∀ b e i, searchFree ms ticks b e = some i →
      b ≤ i ∧ i < e ∧ ms.IsFree (ticks.getD i 0) = true := by
  intro b e
  induction b, e using searchFree.induct ms ticks with
  | case1 b e h hfree =>
    intro i hi
    rw [searchFree, dif_pos h, if_pos hfree] at hi
    cases hi
    exact ⟨le_rfl, h, hfree⟩
  | case2 b e h hfree ih =>
    intro i hi
    rw [searchFree, dif_pos h, if_neg hfree] at hi
    obtain ⟨h1, h2, h3⟩ := ih i hi
    exact ⟨by omega, h2, h3⟩
  | case3 b e h =>
    intro i hi
    rw [searchFree, dif_neg h] at hi
    cases hi

/-- CommitResource returns either an existing slot whose tagged tick the
refreshed semaphore confirms free, or the first slot of a fresh grow_step
region (the old capacity). -/
theorem commitResource_index_spec (pool : ResourcePool) (ms : MasterSemaphore)
    (hfi : pool.free_iterator ≤ pool.ticks.length) (hgrow : 0 < pool.grow_step) :
    ((CommitResource pool ms).1 < pool.ticks.length ∧
        ms.IsFree (pool.ticks.getD (CommitResource pool ms).1 0) = true ∧
        (CommitResource pool ms).2.ticks.length = pool.ticks.length) ∨
      ((CommitResource pool ms).1 = pool.ticks.length ∧
        (CommitResource pool ms).2.ticks.length = pool.ticks.length + pool.grow_step) := by
  unfold CommitResource
  cases hs1 : searchFree ms pool.ticks pool.free_iterator pool.ticks.length with
  | some i =>
    obtain ⟨h1, h2, h3⟩ := searchFree_some ms pool.ticks _ _ i hs1
    simp only []
    exact Or.inl ⟨h2, h3, by simp⟩
  | none =>
    cases hs2 : searchFree ms pool.ticks 0 pool.free_iterator with
    | some i =>
      obtain ⟨h1, h2, h3⟩ := searchFree_some ms pool.ticks _ _ i hs2
      simp only []
      exact Or.inl ⟨by omega, h3, by simp⟩
    | none =>
      simp only []
      refine Or.inr ⟨?_, ?_⟩
      · trivial
      · simp

/-- The committed slot is re-tagged with the current tick and the hint
advances to the slot after it, modulo the (possibly grown) capacity. -/
theorem commitResource_tag_spec (pool : ResourcePool) (ms : MasterSemaphore)
    (hfi : pool.free_iterator ≤ pool.ticks.length) (hgrow : 0 < pool.grow_step) :
    (CommitResource pool ms).2.ticks.getD (CommitResource pool ms).1 0 = ms.current_tick ∧
    (CommitResource pool ms).2.free_iterator =
      ((CommitResource pool ms).1 + 1) % (CommitResource pool ms).2.ticks.length := by
  unfold CommitResource
  cases hs1 : searchFree ms pool.ticks pool.free_iterator pool.ticks.length with
  | some i =>
    obtain ⟨h1, h2, h3⟩ := searchFree_some ms pool.ticks _ _ i hs1
    simp only []
    constructor
    · simp [List.getD_eq_getElem?_getD, List.getElem?_set_self (by simpa using h2)]
    · simp
  | none =>
    cases hs2 : searchFree ms pool.ticks 0 pool.free_iterator with
    | some i =>
      obtain ⟨h1, h2, h3⟩ := searchFree_some ms pool.ticks _ _ i hs2
      have h2b : i < pool.ticks.length := by omega
      simp only []
      constructor
      · simp [List.getD_eq_getElem?_getD, List.getElem?_set_self (by simpa using h2b)]
      · simp
    | none =>
      obtain ⟨g, hg⟩ : ∃ g, pool.grow_step = g + 1 := ⟨pool.grow_step - 1, by omega⟩
      simp only []
      constructor
      · rw [hg]
        simp only [List.getD_eq_getElem?_getD, List.set_append, List.replicate_succ,
          List.set_cons_zero, List.length_append, List.length_cons, List.length_replicate]
        rw [if_neg (lt_irrefl _), Nat.sub_self, List.set_cons_zero]
        rw [List.getElem?_append_right le_rfl]
        simp
      · simp

/-- Claim C5: CommitResource returns, without blocking, an index whose
previously tagged tick the refreshed master semaphore confirms complete
(gpu_tick at or past it), or the first slot of a region grown by exactly
grow_step when both the forward and the wrap-around scans fail (that index
being the old capacity); the returned slot is re-tagged with the current
tick and the hint advances to the following slot. -/
theorem C5_commitResource_safe (pool : ResourcePool) (ms : MasterSemaphore)
    (hfi : pool.free_iterator ≤ pool.ticks.length) (hgrow : 0 < pool.grow_step) :
    (((CommitResource pool ms).1 < pool.ticks.length ∧
        ms.IsFree (pool.ticks.getD (CommitResource pool ms).1 0) = true ∧
        (CommitResource pool ms).2.ticks.length = pool.ticks.length) ∨
      ((CommitResource pool ms).1 = pool.ticks.length ∧
        (CommitResource pool ms).2.ticks.length = pool.ticks.length + pool.grow_step)) ∧
    (CommitResource pool ms).2.ticks.getD (CommitResource pool ms).1 0 = ms.current_tick ∧
    (CommitResource pool ms).2.free_iterator =
      ((CommitResource pool ms).1 + 1) % (CommitResource pool ms).2.ticks.length :=
  ⟨commitResource_index_spec pool ms hfi hgrow, commitResource_tag_spec pool ms hfi hgrow⟩

/-- Witness for C5: a one-slot pool tagged 5 with gpu_tick 0 — both scans
fail, the pool grows by one and the new slot is tagged with tick 7. -/
theorem C5_commitResource_safe_witness :
    (((CommitResource ⟨1, 0, [5]⟩ ⟨0, 7⟩).1 < 1 ∧
        MasterSemaphore.IsFree ⟨0, 7⟩ (List.getD [5] (CommitResource ⟨1, 0, [5]⟩ ⟨0, 7⟩).1 0)
          = true ∧
        (CommitResource ⟨1, 0, [5]⟩ ⟨0, 7⟩).2.ticks.length = 1) ∨
      ((CommitResource ⟨1, 0, [5]⟩ ⟨0, 7⟩).1 = 1 ∧
        (CommitResource ⟨1, 0, [5]⟩ ⟨0, 7⟩).2.ticks.length = 1 + 1)) ∧
    (CommitResource ⟨1, 0, [5]⟩ ⟨0, 7⟩).2.ticks.getD (CommitResource ⟨1, 0, [5]⟩ ⟨0, 7⟩).1 0
      = 7 ∧
    (CommitResource ⟨1, 0, [5]⟩ ⟨0, 7⟩).2.free_iterator =
      ((CommitResource ⟨1, 0, [5]⟩ ⟨0, 7⟩).1 + 1) %
        (CommitResource ⟨1, 0, [5]⟩ ⟨0, 7⟩).2.ticks.length :=
  C5_commitResource_safe ⟨1, 0, [5]⟩ ⟨0, 7⟩ (by decide) (by decide)

/-- Claim C9: a command whose TypedCommand wrapper satisfies the static size
bound is always recorded — either the first chunk-level Record succeeds, or
the filled chunk is dispatched and the retry on the fresh empty chunk
necessarily succeeds (a chunk-level Record at offset 0 can never fail for
such a command) — so the recorded command sequence grows by exactly the new
command and none is ever dropped. -/
theorem C9_record_never_drops {α : Type} (s : SchedulerState α) (cmd : α) (sz : Nat)
    (hsz : sz < chunk_data_size) :
    allRecorded (Record s cmd sz) = allRecorded s ++ [cmd] ∧
    ((CommandChunk.empty : CommandChunk α).Record cmd sz).1 = true := by
  have hempty : ∀ (c : CommandChunk α), c.command_offset = 0 →
      (c.Record cmd sz).1 = true := by
    intro c hc
    unfold CommandChunk.Record
    rw [if_neg (by rw [hc]; omega)]
  refine ⟨?_, hempty CommandChunk.empty rfl⟩
  unfold Record
  by_cases hc : s.chunk.command_offset > chunk_data_size - sz
  · have hfail : (s.chunk.Record cmd sz) = (false, s.chunk) := by
      unfold CommandChunk.Record
      rw [if_pos hc]
    rw [hfail]
    simp only [Bool.false_eq_true, if_false]
    have hne : ¬ s.chunk.command_offset = 0 := by omega
    unfold DispatchWork
    rw [if_neg hne]
    simp only []
    unfold CommandChunk.Record CommandChunk.empty
    rw [if_neg (show ¬ (0 > chunk_data_size - sz) by omega)]
    simp [allRecorded]
  · have hok : (s.chunk.Record cmd sz) =
        (true, ⟨s.chunk.command_offset + sz, s.chunk.recorded ++ [cmd]⟩) := by
      unfold CommandChunk.Record
      rw [if_neg hc]
    rw [hok]
    simp [allRecorded]

/-- Witness for C9: recording an 8-byte command into an empty scheduler. -/
theorem C9_record_never_drops_witness :
    allRecorded (Record (⟨⟨0, []⟩, []⟩ : SchedulerState Nat) 1 8) =
      allRecorded (⟨⟨0, []⟩, []⟩ : SchedulerState Nat) ++ [1] ∧
    ((CommandChunk.empty : CommandChunk Nat).Record 1 8).1 = true :=
  C9_record_never_drops ⟨⟨0, []⟩, []⟩ 1 8 (by decide)

end Vulkan

namespace VideoCommon

/-- Registering a surface installs it in the L1 exact-address map under the
cpu address its gpu address translates to — the premise of the C1 fast
path. -/
theorem register_installs_l1 (gm : Tegra.MemoryManager) (st : TCState) (s : Surface)
    (cpu_addr : Nat) (htr : Tegra.GpuToCpuAddress gm s.gpu_addr = some cpu_addr) :
    lookupA (Register gm st s).1.l1_cache cpu_addr
      = some { s with cpu_addr := cpu_addr, registered := true, memory_marked := true } := by
  unfold Register
  rw [htr]
  simp [RegisterInnerCache, lookupA, setA]

/-- Witness for register_installs_l1 at a fully valid page table. -/
theorem register_installs_l1_witness :
    lookupA (Register ⟨fun _ => Tegra.PageEntry.Valid 0⟩
        ⟨[], [], [], [], false, 0, 1⟩ default).1.l1_cache 0
      = some
        { (default : Surface) with
          cpu_addr := 0
          registered := true
          memory_marked := true } :=
  register_installs_l1 ⟨fun _ => Tegra.PageEntry.Valid 0⟩ ⟨[], [], [], [], false, 0, 1⟩
    default 0 rfl

/-- Claim C1: a surface registered in the cache at cpu_addr with identical
SurfaceParams is an L1 exact-address hit: GetSurface returns that same
surface with its main view, leaves the cache state untouched, and performs
no allocation, rebuild or registration (no events). -/
theorem C1_getSurface_l1_exact_hit (cfg : TCConfig) (gm : Tegra.MemoryManager) (st : TCState)
    (gpu_addr cpu_addr : Nat) (params : SurfaceParams)
    (preserve_contents is_render : Bool) (s : Surface)
    (hl1 : lookupA st.l1_cache cpu_addr = some s)
    (hparams : s.params = params) :
    GetSurface cfg gm st gpu_addr cpu_addr params preserve_contents is_render
      = ((s, s.GetMainView), st, []) := by
  subst hparams
  unfold GetSurface
  rw [hl1]
  simp [Surface.MatchesTopology, Surface.MatchesStructure, ManageStructuralMatch,
    Surface.MatchFormat, Surface.MatchTarget]

/-- Witness for C1: a one-surface cache hit at cpu address 0. -/
theorem C1_getSurface_l1_exact_hit_witness :
    GetSurface ⟨false, fun _ => none⟩ ⟨fun _ => Tegra.PageEntry.Unmapped⟩
      ⟨[(0, default)], [], [], [], false, 0, 1⟩ 0 0 (default : Surface).params true false
      = ((default, (default : Surface).GetMainView),
          ⟨[(0, default)], [], [], [], false, 0, 1⟩, []) :=
  C1_getSurface_l1_exact_hit ⟨false, fun _ => none⟩ ⟨fun _ => Tegra.PageEntry.Unmapped⟩
    ⟨[(0, default)], [], [], [], false, 0, 1⟩ 0 0 (default : Surface).params true false
    default rfl rfl

theorem downloadedSurfaces_map (l : List Surface) :
    downloadedSurfaces (l.map TCEvent.download) = l := by
  induction l with
  | nil => rfl
  | cons s rest ih => simp [downloadedSurfaces] at ih ⊢; exact ih

/-- The flush fold emits one download event per modified surface, in fold
order. -/
theorem flushFold_events (l : List Surface) : ∀ (st0 : TCState) (acc0 : List TCEvent),
    (l.foldl
      (fun acc s =>
        let r := FlushSurfaceSt acc.1 s
        (r.1, acc.2 ++ r.2))
      (st0, acc0)).2
      = acc0 ++ (l.filter (fun s => s.modified)).map TCEvent.download := by
  induction l with
  | nil => intro st0 acc0; simp
  | cons s rest ih =>
    intro st0 acc0
    by_cases h : s.modified
    · simp only [List.foldl_cons, List.filter_cons]
      rw [ih]
      simp [FlushSurfaceSt, h]
    · simp only [List.foldl_cons, List.filter_cons]
      rw [ih]
      simp [FlushSurfaceSt, h]

/-- FlushRegion downloads exactly the modified overlapping surfaces, in the
order of the tick sort. -/
theorem flushed_eq_sorted_filter (st : TCState) (addr size : Nat) :
    flushedSurfaces st addr size
      = ((GetSurfacesInRegion st addr size).mergeSort
          (fun a b => decide (a.modification_tick ≤ b.modification_tick))).filter
            (fun s => s.modified) := by
  unfold flushedSurfaces FlushRegion
  by_cases h : (GetSurfacesInRegion st addr size).isEmpty
  · rw [if_pos h]
    rw [List.isEmpty_iff.mp h]
    simp [downloadedSurfaces]
  · rw [if_neg h]
    show downloadedSurfaces _ = _
    rw [flushFold_events, List.nil_append, downloadedSurfaces_map]

/-- Claim C7: FlushRegion flushes exactly the modified surfaces overlapping
the range (FlushSurface skipping unmodified ones), and does so in ascending
modification-tick order: the flushed sequence is pairwise tick-ordered, and
any strictly older flushed surface comes strictly earlier. -/
theorem C7_flushRegion_tick_order (st : TCState) (addr size : Nat) :
    (∀ s ∈ flushedSurfaces st addr size,
        s.modified = true ∧ s ∈ GetSurfacesInRegion st addr size) ∧
    (∀ s ∈ GetSurfacesInRegion st addr size, s.modified = true →
        s ∈ flushedSurfaces st addr size) ∧
    List.Pairwise (fun a b => a.modification_tick ≤ b.modification_tick)
      (flushedSurfaces st addr size) ∧
    (∀ i j (hi : i < (flushedSurfaces st addr size).length)
        (hj : j < (flushedSurfaces st addr size).length),
      ((flushedSurfaces st addr size).get ⟨i, hi⟩).modification_tick <
        ((flushedSurfaces st addr size).get ⟨j, hj⟩).modification_tick → i < j) := by
  have key := flushed_eq_sorted_filter st addr size
  have hpw : List.Pairwise (fun a b => a.modification_tick ≤ b.modification_tick)
      (flushedSurfaces st addr size) := by
    rw [key]
    apply List.Pairwise.filter
    have hs := @List.sorted_mergeSort Surface
      (fun a b : Surface => decide (a.modification_tick ≤ b.modification_tick))
      (fun a b c hab hbc => by
        simp only [decide_eq_true_eq] at hab hbc ⊢
        omega)
      (fun a b => by
        simp only [Bool.or_eq_true, decide_eq_true_eq]
        omega)
      (GetSurfacesInRegion st addr size)
    exact hs.imp (fun h => by simpa using h)
  refine ⟨?_, ?_, hpw, ?_⟩
  · intro s hs
    rw [key] at hs
    have h1 := List.of_mem_filter hs
    have h2 := List.mem_of_mem_filter hs
    rw [List.mem_mergeSort] at h2
    exact ⟨by simpa using h1, h2⟩
  · intro s hs hmod
    rw [key]
    refine List.mem_filter.mpr ⟨?_, by simpa using hmod⟩
    rw [List.mem_mergeSort]
    exact hs
  · intro i j hi hj hlt
    by_contra hij
    push_neg at hij
    rcases Nat.lt_or_ge j i with hji | hji
    · have := List.pairwise_iff_get.mp hpw ⟨j, hj⟩ ⟨i, hi⟩ hji
      omega
    · have : i = j := by omega
      subst this
      omega

end VideoCommon

end Spec2Proof
